import Mathlib

/-!
Verification of the BVH frustum-culling core of the `dx11-gpu-culling`
repository.  The C++ source (CPUBVHSystem.cpp, GPUBVHSystem.cpp,
GPUBVHShaders.cpp, Structures.cpp, Common.h) is shallowly embedded below.

Modelling conventions:
* `float` scalars of the geometry code are modelled by `ℚ` (the algorithms
  only add, subtract, halve, compare and take componentwise min/max, all of
  which are order-exact);
* the scalar state of `GPUBVHSystem` is modelled over `ℝ` because it sums
  Euclidean lengths (`sqrt`);
* 32-bit unsigned shader arithmetic is modelled on `ℕ` with explicit
  `% 2^32` where wrap-around can occur;
* GPU kernels write disjoint slots of their output buffers (one owning
  thread per slot), so a dispatch is modelled as a per-slot function.  The
  `parent`/`atomicCounter` fields of the construction shader's node struct
  are written racily by several threads and are read by none of the code
  under verification; they are omitted from the node model.
-/

namespace DXGame

/-- `Vector3` of DirectXTK SimpleMath, with `ℚ` components. -/
structure Vector3 where
  x : ℚ
  y : ℚ
  z : ℚ
deriving DecidableEq, Repr

namespace Vector3

def add (a b : Vector3) : Vector3 := ⟨a.x + b.x, a.y + b.y, a.z + b.z⟩

def sub (a b : Vector3) : Vector3 := ⟨a.x - b.x, a.y - b.y, a.z - b.z⟩

def smul (a : Vector3) (s : ℚ) : Vector3 := ⟨a.x * s, a.y * s, a.z * s⟩

/-- `Vector3::Min`, componentwise. -/
def vmin (a b : Vector3) : Vector3 := ⟨min a.x b.x, min a.y b.y, min a.z b.z⟩

/-- `Vector3::Max`, componentwise. -/
def vmax (a b : Vector3) : Vector3 := ⟨max a.x b.x, max a.y b.y, max a.z b.z⟩

/-- Componentwise `≤`, the AABB ordering used in statements. -/
def le (a b : Vector3) : Prop := a.x ≤ b.x ∧ a.y ≤ b.y ∧ a.z ≤ b.z

instance : DecidablePred fun p : Vector3 × Vector3 => le p.1 p.2 := fun _ =>
  by unfold le; infer_instance

instance (a b : Vector3) : Decidable (le a b) := by unfold le; infer_instance

end Vector3

/-- One frustum plane, the `XMFLOAT4` of `Frustum::planes[i]`:
normal `(x,y,z)` and offset `w`. -/
structure Plane where
  x : ℚ
  y : ℚ
  z : ℚ
  w : ℚ
deriving DecidableEq, Repr

/-- The frustum of `Structures.h`: six planes. -/
structure Frustum where
  planes : Fin 6 → Plane

namespace Frustum

/-- The "positive vertex" selected inside `Frustum::IsBoxInFrustum`:
per axis the corner farthest along the sign of the plane normal. -/
def positiveVertex (p : Plane) (minBounds maxBounds : Vector3) : Vector3 :=
  ⟨if p.x ≥ 0 then maxBounds.x else minBounds.x,
   if p.y ≥ 0 then maxBounds.y else minBounds.y,
   if p.z ≥ 0 then maxBounds.z else minBounds.z⟩

/-- The signed distance computed inside `Frustum::IsBoxInFrustum`:
`planes[i].x * v.x + planes[i].y * v.y + planes[i].z * v.z + planes[i].w`. -/
def planeDistance (p : Plane) (v : Vector3) : ℚ :=
  p.x * v.x + p.y * v.y + p.z * v.z + p.w

/-- `Frustum::IsBoxInFrustum` (Structures.cpp): returns `false` as soon as
one plane's positive-vertex distance is negative, else `true`.  The
early-exit loop is extensionally the conjunction over the six planes. -/
def IsBoxInFrustum (f : Frustum) (minBounds maxBounds : Vector3) : Bool :=
  (List.finRange 6).all fun i =>
    decide (0 ≤ planeDistance (f.planes i) (positiveVertex (f.planes i) minBounds maxBounds))

/-- The eight corners of an AABB. -/
def corners (minBounds maxBounds : Vector3) : List Vector3 :=
  [⟨minBounds.x, minBounds.y, minBounds.z⟩,
   ⟨minBounds.x, minBounds.y, maxBounds.z⟩,
   ⟨minBounds.x, maxBounds.y, minBounds.z⟩,
   ⟨minBounds.x, maxBounds.y, maxBounds.z⟩,
   ⟨maxBounds.x, minBounds.y, minBounds.z⟩,
   ⟨maxBounds.x, minBounds.y, maxBounds.z⟩,
   ⟨maxBounds.x, maxBounds.y, minBounds.z⟩,
   ⟨maxBounds.x, maxBounds.y, maxBounds.z⟩]

end Frustum

/-- `RenderObject` (Structures.h), restricted to the fields the verified
core reads: its AABB, visibility flag, occlusion counter, dynamic flag and
world-space position (`GetPosition()`, the translation of `world`). -/
structure RenderObject where
  minBounds : Vector3
  maxBounds : Vector3
  visible : Bool := true
  occludedFrameCount : ℤ := 0
  isDynamic : Bool := false
  position : Vector3 := ⟨0, 0, 0⟩
deriving DecidableEq, Repr

/-- `BVHNode` (Structures.h).  The same layout is used by the CPU system
and — minus the raced, never-read `parent`/`atomicCounter` fields — by the
GPU shaders (`isLeaf` is an `int` flag there, modelled as `Bool`). -/
structure BVHNode where
  minBounds : Vector3
  maxBounds : Vector3
  leftChild : ℤ := -1
  rightChild : ℤ := -1
  objectIndex : ℤ := -1
  isLeaf : Bool := false
deriving DecidableEq, Repr

instance : Inhabited BVHNode := ⟨{ minBounds := ⟨0,0,0⟩, maxBounds := ⟨0,0,0⟩ }⟩

instance : Inhabited RenderObject := ⟨{ minBounds := ⟨0,0,0⟩, maxBounds := ⟨0,0,0⟩ }⟩

/-- Total indexing into a vector-like list, standing for C++ `operator[]`
on indices that are in range wherever the source uses them. -/
def lookup0 {α : Type} [Inhabited α] (l : List α) (i : ℕ) : α :=
  (l[i]?).getD default

-- ==========================================================================
-- CPUBVHSystem (CPUBVHSystem.h / CPUBVHSystem.cpp)
-- ==========================================================================

/-- The leaf node `CPUBVHSystem::BuildBVH` pushes for object `i`. -/
def leafNodeOf (objects : List RenderObject) (i : ℕ) : BVHNode :=
  { minBounds := (lookup0 objects i).minBounds
    maxBounds := (lookup0 objects i).maxBounds
    objectIndex := (i : ℤ)
    isLeaf := true }

/-- Sort key of `BuildBVHRecursive`'s comparator: the requested coordinate
of the node's AABB center `(min + max) * 0.5`. -/
def centerCoord (nodes : List BVHNode) (axis : ℕ) (i : ℕ) : ℚ :=
  let n := lookup0 nodes i
  let c := Vector3.smul (Vector3.add n.minBounds n.maxBounds) (1/2)
  if axis = 0 then c.x else if axis = 1 then c.y else c.z

/-- The `minBounds` accumulated by `BuildBVHRecursive` over its index
list (fold started from the first element, as in the source). -/
def buildMinB (nodes : List BVHNode) (idxs : List ℕ) : Vector3 :=
  idxs.tail.foldl (fun acc i => Vector3.vmin acc (lookup0 nodes i).minBounds)
    (lookup0 nodes (idxs.headD 0)).minBounds

/-- The `maxBounds` accumulated by `BuildBVHRecursive`. -/
def buildMaxB (nodes : List BVHNode) (idxs : List ℕ) : Vector3 :=
  idxs.tail.foldl (fun acc i => Vector3.vmax acc (lookup0 nodes i).maxBounds)
    (lookup0 nodes (idxs.headD 0)).maxBounds

/-- The axis with the largest extent, chosen by `BuildBVHRecursive`. -/
def buildAxis (nodes : List BVHNode) (idxs : List ℕ) : ℕ :=
  let extent := Vector3.sub (buildMaxB nodes idxs) (buildMinB nodes idxs)
  let axis1 : ℕ := if extent.y > extent.x then 1 else 0
  if extent.z > (if axis1 = 0 then extent.x else extent.y) then 2 else axis1

/-- The node-index list sorted along the chosen axis by AABB center.
`std::sort`'s unspecified order on ties is refined to a stable insertion
sort on the non-strict comparator. -/
def buildSorted (nodes : List BVHNode) (idxs : List ℕ) : List ℕ :=
  List.insertionSort
    (fun a b => centerCoord nodes (buildAxis nodes idxs) a ≤
      centerCoord nodes (buildAxis nodes idxs) b) idxs

/-- `CPUBVHSystem::BuildBVHRecursive`.  State (`m_bvhNodes`) is passed
explicitly; the result is the updated node list and the returned node
index.  The function is only ever called on non-empty index lists (the
`[]` branch is dead, matching the C++ precondition). -/
def buildBVHRecursive (nodes : List BVHNode) (idxs : List ℕ) : List BVHNode × ℕ :=
  if _h : idxs.length ≤ 1 then (nodes, idxs.headD 0)
  else
    -- sort nodes along the largest-extent axis, split in half
    let sorted := buildSorted nodes idxs
    let mid := idxs.length / 2
    -- create the internal node (bounds from the whole range)
    let nodes1 := nodes ++
      [{ minBounds := buildMinB nodes idxs, maxBounds := buildMaxB nodes idxs,
         isLeaf := false }]
    -- recursively build children, then fix up the child links
    let res1 := buildBVHRecursive nodes1 (sorted.take mid)
    let nodes3 := res1.1.set nodes.length
      { lookup0 res1.1 nodes.length with leftChild := (res1.2 : ℤ) }
    let res2 := buildBVHRecursive nodes3 (sorted.drop mid)
    (res2.1.set nodes.length
      { lookup0 res2.1 nodes.length with rightChild := (res2.2 : ℤ) },
     nodes.length)
termination_by idxs.length
decreasing_by
  · simp only [List.length_take, buildSorted, List.length_insertionSort]
    omega
  · simp only [List.length_drop, buildSorted, List.length_insertionSort]
    omega

/-- The state of a `CPUBVHSystem` instance. -/
structure CPUBVHSystem where
  bvhNodes : List BVHNode := []
  rootNode : ℤ := -1
deriving DecidableEq, Repr

namespace CPUBVHSystem

/-- `CPUBVHSystem::IsValid`. -/
def IsValid (s : CPUBVHSystem) : Bool :=
  decide (0 ≤ s.rootNode) && !s.bvhNodes.isEmpty

/-- `CPUBVHSystem::BuildBVH`: early-out on an empty object list, else
clear the node array, push one leaf per object and build recursively. -/
def BuildBVH (s : CPUBVHSystem) (objects : List RenderObject) : CPUBVHSystem :=
  if objects = [] then s
  else
    let leaves := (List.range objects.length).map (leafNodeOf objects)
    let objectIndices := List.range objects.length
    let res := buildBVHRecursive leaves objectIndices
    { bvhNodes := res.1, rootNode := (res.2 : ℤ) }

/-- Set `objects[i].visible = true`. -/
def setVisibleTrue (objects : List RenderObject) (i : ℕ) : List RenderObject :=
  objects.set i { lookup0 objects i with visible := true }

/-- `CPUBVHSystem::FrustumCullBVH`.  The C++ recursion is modelled with a
fuel parameter; any fuel at least the subtree's node count reproduces it
(`PerformFrustumCulling` passes `m_bvhNodes.size() + 1`). -/
def FrustumCullBVH (nodes : List BVHNode) (frustum : Frustum) :
    ℕ → ℤ → List RenderObject → List RenderObject
  | 0, _, objects => objects
  | fuel + 1, nodeIndex, objects =>
    if nodeIndex < 0 ∨ (nodes.length : ℤ) ≤ nodeIndex then objects
    else
      let node := lookup0 nodes nodeIndex.toNat
      if ¬ Frustum.IsBoxInFrustum frustum node.minBounds node.maxBounds then
        objects
      else if node.isLeaf then
        if 0 ≤ node.objectIndex ∧ node.objectIndex < (objects.length : ℤ) then
          setVisibleTrue objects node.objectIndex.toNat
        else objects
      else
        FrustumCullBVH nodes frustum fuel node.rightChild
          (FrustumCullBVH nodes frustum fuel node.leftChild objects)

/-- `CPUBVHSystem::PerformFrustumCulling`: reset every object to not
visible, then traverse the BVH if the hierarchy is valid. -/
def PerformFrustumCulling (s : CPUBVHSystem) (frustum : Frustum)
    (objects : List RenderObject) : List RenderObject :=
  let reset := objects.map fun o => { o with visible := false }
  if s.IsValid then
    FrustumCullBVH s.bvhNodes frustum (s.bvhNodes.length + 1) s.rootNode reset
  else reset

end CPUBVHSystem

instance : Inhabited Vector3 := ⟨⟨0, 0, 0⟩⟩

-- ==========================================================================
-- Config constants (Common.h)
-- ==========================================================================

namespace Config

def MAX_BVH_DEPTH : ℕ := 16
def COMPUTE_THREADS_PER_GROUP : ℕ := 64
def MAX_STACK_SIZE : ℕ := 64
def MORTON_CODE_RANGE : ℕ := 1023
def OCCLUSION_FRAME_THRESHOLD : ℤ := 1
noncomputable def MOVEMENT_THRESHOLD : ℝ := 1 / 100
noncomputable def REBUILD_THRESHOLD : ℝ := 2
noncomputable def BVH_QUALITY_THRESHOLD : ℝ := 2
def MAX_FRAMES_BETWEEN_REBUILDS : ℕ := 300
def BVH_REFIT_ITERATIONS : ℕ := 3

end Config

-- ==========================================================================
-- GPUBVHShaders.cpp — Morton code shader
-- ==========================================================================

/-- `expandBits` of the Morton-code compute shader: spread the low 10 bits
of `v` so that two zero bits follow each.  `uint` arithmetic, wrap-around
modelled with explicit `% 2^32`. -/
def expandBits (v : ℕ) : ℕ :=
  let v1 := (v * 0x00010001) % 2 ^ 32 &&& 0xFF0000FF
  let v2 := (v1 * 0x00000101) % 2 ^ 32 &&& 0x0F00F00F
  let v3 := (v2 * 0x00000011) % 2 ^ 32 &&& 0xC30C30C3
  (v3 * 0x00000005) % 2 ^ 32 &&& 0x49249249

/-- HLSL scalar `clamp`. -/
def clampQ (q lo hi : ℚ) : ℚ := min (max q lo) hi

/-- `(uint)` cast of a non-negative float: truncation toward zero. -/
def floatToUint (q : ℚ) : ℕ := (⌊q⌋).toNat

/-- `morton3D` of the Morton-code shader: clamp each coordinate into
`[0, 1023]`, expand the bits and interleave (`x*4 + y*2 + z`). -/
def morton3D (pos : Vector3) : ℕ :=
  let x := expandBits (floatToUint (clampQ pos.x 0 1023))
  let y := expandBits (floatToUint (clampQ pos.y 0 1023))
  let z := expandBits (floatToUint (clampQ pos.z 0 1023))
  (x * 4 + y * 2 + z) % 2 ^ 32

/-- Exact division, failing on a zero divisor: the shader's float divide
has no exact-arithmetic meaning when the divisor is `0`. -/
def safeDiv (a b : ℚ) : Option ℚ := if b = 0 then none else some (a / b)

/-- The Morton-code kernel body for one object (`GetMortonCodeShaderSource`
main): object center, normalization by the scene extent — an *unguarded*
componentwise division — then `morton3D`.  Returns `none` exactly when the
normalization divides by zero. -/
def mortonCodeKernel (obj : RenderObject) (sceneMin sceneMax : Vector3) :
    Option ℕ :=
  let center := Vector3.smul (Vector3.add obj.minBounds obj.maxBounds) (1/2)
  let extent := Vector3.sub sceneMax sceneMin
  match safeDiv (center.x - sceneMin.x) extent.x,
        safeDiv (center.y - sceneMin.y) extent.y,
        safeDiv (center.z - sceneMin.z) extent.z with
  | some nx, some ny, some nz => some (morton3D ⟨nx * 1023, ny * 1023, nz * 1023⟩)
  | _, _, _ => none

-- ==========================================================================
-- GPUBVHShaders.cpp — BVH construction shader
-- ==========================================================================

/-- HLSL `firstbithigh` on `uint` (index of the most significant set bit,
all-ones i.e. `-1` as `int` for zero). -/
def firstbithigh (n : ℕ) : ℤ := if n = 0 then -1 else (Nat.log2 n : ℤ)

/-- The do-while binary-search loop inside the construction shader's
`findSplit`. -/
def findSplitLoop (codes : List (ℕ × ℤ)) (firstCode : ℕ) (commonXorMsb : ℤ)
    (last : ℕ) (split step : ℕ) : ℕ :=
  let step1 := (step + 1) / 2
  let newSplit := split + step1
  let split1 :=
    if newSplit < last ∧
        firstbithigh (firstCode ^^^ (lookup0 codes newSplit).1) > commonXorMsb
    then newSplit else split
  if 1 < step1 then findSplitLoop codes firstCode commonXorMsb last split1 step1
  else split1
termination_by step
decreasing_by
  omega

/-- `findSplit` of the construction shader. -/
def findSplit (codes : List (ℕ × ℤ)) (first last : ℕ) : ℕ :=
  let firstCode := (lookup0 codes first).1
  let lastCode := (lookup0 codes last).1
  if firstCode = lastCode then (first + last) / 2
  else
    findSplitLoop codes firstCode (firstbithigh (firstCode ^^^ lastCode))
      last first (last - first)

/-- `calculateBounds` of the construction shader: union of the object
boxes referenced by the sorted Morton records in positions
`[first, last]`. -/
def calculateBounds (codes : List (ℕ × ℤ)) (objects : List RenderObject)
    (first last : ℕ) : Vector3 × Vector3 :=
  let idxOf := fun i => ((lookup0 codes i).2).toNat
  let minB := (List.range' (first + 1) (last - first)).foldl
    (fun acc i => Vector3.vmin acc (lookup0 objects (idxOf i)).minBounds)
    (lookup0 objects (idxOf first)).minBounds
  let maxB := (List.range' (first + 1) (last - first)).foldl
    (fun acc i => Vector3.vmax acc (lookup0 objects (idxOf i)).maxBounds)
    (lookup0 objects (idxOf first)).maxBounds
  (minB, maxB)

/-- The node written by the construction-kernel thread that owns slot
`nodeIndex` (`GetBVHConstructionShaderSource` main).  Each slot of the
node buffer is written by exactly one thread, so the dispatch is the
per-slot map `gpuConstructBVH` below; the raced `parent` field is
omitted. -/
def gpuConstructNode (codes : List (ℕ × ℤ)) (objects : List RenderObject)
    (objectCount : ℕ) (nodeIndex : ℕ) : BVHNode :=
  let numInternalNodes := objectCount - 1
  if numInternalNodes ≤ nodeIndex then
    -- leaf slot (the `leafIndex < objectCount` guard holds on every slot
    -- of the `2N-1`-entry buffer)
    let leafIndex := nodeIndex - numInternalNodes
    let objIdx := (lookup0 codes leafIndex).2
    { minBounds := (lookup0 objects objIdx.toNat).minBounds
      maxBounds := (lookup0 objects objIdx.toNat).maxBounds
      leftChild := -1, rightChild := -1
      objectIndex := objIdx, isLeaf := true }
  else
    -- internal slot: determine the range, then split it
    let fl : ℕ × ℕ :=
      if nodeIndex = 0 then (0, objectCount - 1)
      else
        let split0 := findSplit codes 0 (objectCount - 1)
        if nodeIndex ≤ split0 then (nodeIndex, split0)
        else (split0 + 1, objectCount - 1)
    let first := fl.1
    let last := fl.2
    let split := findSplit codes first last
    let leftChild : ℤ :=
      if split = first then ((numInternalNodes + split : ℕ) : ℤ) else (split : ℤ)
    let rightChild : ℤ :=
      if split + 1 = last then ((numInternalNodes + split + 1 : ℕ) : ℤ)
      else ((split + 1 : ℕ) : ℤ)
    let bounds := calculateBounds codes objects first last
    { minBounds := bounds.1, maxBounds := bounds.2
      leftChild := leftChild, rightChild := rightChild
      objectIndex := -1, isLeaf := false }

/-- The whole `2N-1`-slot node buffer produced by one construction
dispatch over the sorted Morton records. -/
def gpuConstructBVH (codes : List (ℕ × ℤ)) (objects : List RenderObject)
    (objectCount : ℕ) : List BVHNode :=
  (List.range (2 * objectCount - 1)).map (gpuConstructNode codes objects objectCount)

/-- The leaf node the construction kernel writes for a sorted Morton
record. -/
def gpuLeafOf (objects : List RenderObject) (c : ℕ × ℤ) : BVHNode :=
  { minBounds := (lookup0 objects c.2.toNat).minBounds
    maxBounds := (lookup0 objects c.2.toNat).maxBounds
    leftChild := -1, rightChild := -1
    objectIndex := c.2, isLeaf := true }

-- ==========================================================================
-- GPUBVHShaders.cpp — frustum-culling shader
-- ==========================================================================

/-- The iterative stack traversal of the culling shader for one object
(`while (stackPtr > 0 && stackPtr < 64)`), with the stack as a list whose
head is the top.  `fuel` bounds the number of iterations; the C++ loop on
a well-formed tree needs at most one iteration per node. -/
def gpuCullLoop (nodes : List BVHNode) (frustum : Frustum) (nodeCount : ℕ)
    (objIdx : ℕ) : ℕ → List ℤ → ℤ
  | 0, _ => 0
  | fuel + 1, stack =>
    if stack.length = 0 ∨ ¬ stack.length < 64 then 0
    else
      match stack with
      | [] => 0
      | nodeIndex :: rest =>
        if nodeIndex < 0 ∨ (nodeCount : ℤ) ≤ nodeIndex then
          gpuCullLoop nodes frustum nodeCount objIdx fuel rest
        else
          let node := lookup0 nodes nodeIndex.toNat
          if ¬ Frustum.IsBoxInFrustum frustum node.minBounds node.maxBounds then
            gpuCullLoop nodes frustum nodeCount objIdx fuel rest
          else if node.isLeaf then
            if node.objectIndex = (objIdx : ℤ) then 1
            else gpuCullLoop nodes frustum nodeCount objIdx fuel rest
          else
            let s1 := if 0 ≤ node.rightChild ∧ rest.length < 63
              then node.rightChild :: rest else rest
            let s2 := if 0 ≤ node.leftChild ∧ s1.length < 63
              then node.leftChild :: s1 else s1
            gpuCullLoop nodes frustum nodeCount objIdx fuel s2

/-- What the culling-shader thread computes for one object
(`GetFrustumCullingShaderSource` main, loop body for `objIdx`): if the
object is heavily occluded (`occludedFrameCount > 2`) its visibility slot
is left untouched, else it is recomputed by the stack traversal. -/
def gpuCullObject (nodes : List BVHNode) (frustum : Frustum)
    (rootNodeIndex : ℤ) (nodeCount : ℕ) (objects : List RenderObject)
    (vis : List ℤ) (fuel : ℕ) (objIdx : ℕ) : ℤ :=
  let obj := lookup0 objects objIdx
  if obj.occludedFrameCount ≤ 2 then
    if 0 ≤ rootNodeIndex then
      gpuCullLoop nodes frustum nodeCount objIdx fuel [rootNodeIndex]
    else 0
  else lookup0 vis objIdx

/-- One culling dispatch: the 64 threads partition `[0, objectCount)`
(each index is processed by exactly one thread), so the visibility buffer
after the dispatch is this per-slot map. -/
def gpuFrustumCullingKernel (nodes : List BVHNode) (frustum : Frustum)
    (rootNodeIndex : ℤ) (nodeCount objectCount : ℕ)
    (objects : List RenderObject) (vis : List ℤ) (fuel : ℕ) : List ℤ :=
  (List.range vis.length).map fun i =>
    if i < objectCount then
      gpuCullObject nodes frustum rootNodeIndex nodeCount objects vis fuel i
    else lookup0 vis i

-- ==========================================================================
-- GPUBVHShaders.cpp / GPUBVHSystem.cpp — BVH refit
-- ==========================================================================

/-- What the refit-shader thread owning `nodeIndex` writes
(`GetBVHRefitShaderSource` main): a leaf takes its object's box, an
internal node with in-range children takes the union of its children's
boxes as read from `nodes`. -/
def refitBody (objects : List RenderObject) (objectCount nodeCount : ℕ)
    (nodes : List BVHNode) (nodeIndex : ℕ) : BVHNode :=
  if ¬ nodeIndex < nodeCount then lookup0 nodes nodeIndex
  else
    let node := lookup0 nodes nodeIndex
    if node.isLeaf then
      if 0 ≤ node.objectIndex ∧ node.objectIndex < (objectCount : ℤ) then
        { node with
          minBounds := (lookup0 objects node.objectIndex.toNat).minBounds
          maxBounds := (lookup0 objects node.objectIndex.toNat).maxBounds }
      else node
    else
      if 0 ≤ node.leftChild ∧ 0 ≤ node.rightChild ∧
          node.leftChild < (nodeCount : ℤ) ∧ node.rightChild < (nodeCount : ℤ) then
        { node with
          minBounds := Vector3.vmin (lookup0 nodes node.leftChild.toNat).minBounds
            (lookup0 nodes node.rightChild.toNat).minBounds
          maxBounds := Vector3.vmax (lookup0 nodes node.leftChild.toNat).maxBounds
            (lookup0 nodes node.rightChild.toNat).maxBounds }
      else node

/-- One refit dispatch, modelled — as the host's barrier-separated
iteration intends — as a synchronized full pass: every slot is written by
its owning thread from the state at the start of the pass. -/
def refitPass (objects : List RenderObject) (objectCount nodeCount : ℕ)
    (nodes : List BVHNode) : List BVHNode :=
  (List.range nodes.length).map (refitBody objects objectCount nodeCount nodes)

/-- `GPUBVHSystem::RefitBVHBottomUp`'s dispatch loop:
`BVH_REFIT_ITERATIONS = 3` synchronized passes with
`nodeCount = 2*objectCount - 1` (from `UpdateCullingParams`). -/
def refitBVHBottomUp (objects : List RenderObject) (nodes : List BVHNode) :
    List BVHNode :=
  (refitPass objects objects.length (2 * objects.length - 1))^[Config.BVH_REFIT_ITERATIONS]
    nodes

-- ==========================================================================
-- GPUBVHSystem.cpp — rebuild/refit scheduling state
-- ==========================================================================

/-- Euclidean length of a `Vector3` (`Vector3::Length`), valued in `ℝ`. -/
noncomputable def vlen (v : Vector3) : ℝ :=
  Real.sqrt ((v.x : ℝ) ^ 2 + (v.y : ℝ) ^ 2 + (v.z : ℝ) ^ 2)

/-- The scheduling state of a `GPUBVHSystem` instance (GPUBVHSystem.h
member initializers).  Device resources are abstracted to the
`hasShaders` flag (`m_mortonCodeCS`/`m_bvhConstructionCS` non-null). -/
structure GPUBVHSystem where
  needsRebuild : Bool := true
  framesSinceLastRebuild : ℕ := 0
  accumulatedMovement : ℝ := 0
  previousPositions : List Vector3 := []
  initialBVHSurfaceArea : ℝ := 0
  currentBVHSurfaceArea : ℝ := 0
  hasShaders : Bool := true

namespace GPUBVHSystem

/-- `GPUBVHSystem::CalculateSurfaceAreaHeuristic` — the placeholder
`m_accumulatedMovement * 100.0f + 1000.0f`. -/
noncomputable def CalculateSurfaceAreaHeuristic (s : GPUBVHSystem) : ℝ :=
  s.accumulatedMovement * 100 + 1000

/-- `GPUBVHSystem::CalculateBVHQuality`. -/
noncomputable def CalculateBVHQuality (s : GPUBVHSystem) : ℝ :=
  if s.initialBVHSurfaceArea ≤ 0 then 1
  else s.currentBVHSurfaceArea / s.initialBVHSurfaceArea

/-- `GPUBVHSystem::UpdateBVHQualityMetrics`: capture
`initialBVHSurfaceArea` only while it is still unset (`≤ 0`), always
refresh `currentBVHSurfaceArea`. -/
noncomputable def UpdateBVHQualityMetrics (s : GPUBVHSystem) : GPUBVHSystem :=
  let currentSAH := s.CalculateSurfaceAreaHeuristic
  { s with
    initialBVHSurfaceArea :=
      if s.initialBVHSurfaceArea ≤ 0 then currentSAH else s.initialBVHSurfaceArea
    currentBVHSurfaceArea := currentSAH }

/-- `GPUBVHSystem::BuildBVH` restricted to its scheduling-state effect
(the GPU dispatches build the node buffer, abstracted here); `none` on
the early-out failure (`objects.empty()` or missing shaders). -/
noncomputable def BuildBVH (s : GPUBVHSystem) (objects : List RenderObject) :
    Option GPUBVHSystem :=
  if objects = [] ∨ s.hasShaders = false then none
  else
    let s1 := s.UpdateBVHQualityMetrics
    some { s1 with
      needsRebuild := false
      framesSinceLastRebuild := 0
      accumulatedMovement := 0
      previousPositions := objects.map (·.position) }

/-- The summed per-frame movement of the dynamic objects in
`ShouldRebuildBVH`'s loop. -/
noncomputable def frameMovement (objects : List RenderObject) (prev : List Vector3) : ℝ :=
  (List.range objects.length).foldl
    (fun acc i =>
      if (lookup0 objects i).isDynamic then
        acc + vlen (Vector3.sub (lookup0 objects i).position (lookup0 prev i))
      else acc) 0

/-- `m_previousPositions` after `ShouldRebuildBVH`'s loop (only dynamic
objects' slots are refreshed). -/
def updatedPrev (objects : List RenderObject) (prev : List Vector3) : List Vector3 :=
  (List.range objects.length).map fun i =>
    if (lookup0 objects i).isDynamic then (lookup0 objects i).position
    else lookup0 prev i

/-- `GPUBVHSystem::ShouldRebuildBVH`: the returned decision and the
updated state. -/
noncomputable def ShouldRebuildBVH (s : GPUBVHSystem) (objects : List RenderObject) :
    Bool × GPUBVHSystem :=
  let s0 := { s with framesSinceLastRebuild := s.framesSinceLastRebuild + 1 }
  if Config.MAX_FRAMES_BETWEEN_REBUILDS ≤ s0.framesSinceLastRebuild then
    (true, s0)
  else if s0.previousPositions.length ≠ objects.length then
    (false, { s0 with previousPositions := objects.map (·.position) })
  else
    let s1 := { s0 with
      previousPositions := updatedPrev objects s0.previousPositions
      accumulatedMovement :=
        s0.accumulatedMovement + frameMovement objects s0.previousPositions }
    if Config.REBUILD_THRESHOLD < s1.accumulatedMovement then (true, s1)
    else if Config.BVH_QUALITY_THRESHOLD < s1.CalculateBVHQuality then (true, s1)
    else (false, s1)

end GPUBVHSystem

-- ==========================================================================
-- Reachability in a node array, and the spec-side direct strategy
-- ==========================================================================

/-- Node `k` is reachable from `root` by following child links through
internal nodes. -/
inductive ReachableFrom (nodes : List BVHNode) (root : ℤ) : ℤ → Prop
  | refl : ReachableFrom nodes root root
  | left {j : ℤ} (hj : ReachableFrom nodes root j) (h0 : 0 ≤ j)
      (hlt : j < (nodes.length : ℤ))
      (hleaf : (lookup0 nodes j.toNat).isLeaf = false) :
      ReachableFrom nodes root (lookup0 nodes j.toNat).leftChild
  | right {j : ℤ} (hj : ReachableFrom nodes root j) (h0 : 0 ≤ j)
      (hlt : j < (nodes.length : ℤ))
      (hleaf : (lookup0 nodes j.toNat).isLeaf = false) :
      ReachableFrom nodes root (lookup0 nodes j.toNat).rightChild

/-- Modelled from the spec (§4.6, "Direct per-object test"): the direct
strategy classifies each object's own box against the frustum,
independently per object. -/
def directVisible (frustum : Frustum) (objects : List RenderObject) (i : ℕ) : Bool :=
  Frustum.IsBoxInFrustum frustum (lookup0 objects i).minBounds
    (lookup0 objects i).maxBounds

-- ==========================================================================
-- Concrete scheduling scenarios (for the rebuild-policy claims)
-- ==========================================================================

/-- A single dynamic unit cube at position `p`. -/
def dynObjAt (p : Vector3) : RenderObject :=
  { minBounds := Vector3.sub p ⟨1/2, 1/2, 1/2⟩
    maxBounds := Vector3.add p ⟨1/2, 1/2, 1/2⟩
    isDynamic := true
    position := p }

/-- The object of the slow-drift scenario at frame `k`: it advances
`0.005` units per frame along `x`. -/
def driftObj (k : ℕ) : RenderObject := dynObjAt ⟨(k : ℚ) / 200, 0, 0⟩

/-- Scheduling state after the initial build over the drift object. -/
noncomputable def driftInit : GPUBVHSystem :=
  (GPUBVHSystem.BuildBVH {} [driftObj 0]).getD {}

/-- Scheduling state after `k` further `ShouldRebuildBVH` calls of the
slow-drift scenario. -/
noncomputable def driftSeq : ℕ → GPUBVHSystem
  | 0 => driftInit
  | k + 1 => (GPUBVHSystem.ShouldRebuildBVH (driftSeq k) [driftObj (k + 1)]).2

/-- Scheduling state after the initial build over one static-position
dynamic object. -/
noncomputable def staticInit : GPUBVHSystem :=
  (GPUBVHSystem.BuildBVH {} [driftObj 0]).getD {}

/-- Scheduling state after `k` `ShouldRebuildBVH` calls with the object
never moving. -/
noncomputable def staticSeq : ℕ → GPUBVHSystem
  | 0 => staticInit
  | k + 1 => (GPUBVHSystem.ShouldRebuildBVH (staticSeq k) [driftObj 0]).2

/-- The teleport trace showing the quality-degradation rebuild: build,
one frame with 11 units of movement (rebuild, executed), then a static
frame. -/
noncomputable def teleInit : GPUBVHSystem :=
  (GPUBVHSystem.BuildBVH {} [dynObjAt ⟨0, 0, 0⟩]).getD {}

/-- State after the movement-triggered `ShouldRebuildBVH` call of the
teleport trace. -/
noncomputable def teleAfterCall : GPUBVHSystem :=
  (GPUBVHSystem.ShouldRebuildBVH teleInit [dynObjAt ⟨11, 0, 0⟩]).2

/-- State after the subsequent successful rebuild of the teleport trace. -/
noncomputable def teleAfterRebuild : GPUBVHSystem :=
  (GPUBVHSystem.BuildBVH teleAfterCall [dynObjAt ⟨11, 0, 0⟩]).getD {}

-- ==========================================================================
-- Concrete inputs used to instantiate the theorems
-- ==========================================================================

/-- Two unit cubes, one at the origin and one at `x = 3`. -/
def c1Objs : List RenderObject := [dynObjAt ⟨0, 0, 0⟩, dynObjAt ⟨3, 0, 0⟩]

/-- Sorted Morton records for `c1Objs` (distinct keys, identity order). -/
def c1Codes : List (ℕ × ℤ) := [(1, 0), (2, 1)]

/-- Three objects whose centers share one Morton cell; the first box is
much larger than the others. -/
def c2Objects : List RenderObject :=
  [{ minBounds := ⟨0, 0, 0⟩, maxBounds := ⟨10, 10, 10⟩ },
   { minBounds := ⟨1, 1, 1⟩, maxBounds := ⟨2, 2, 2⟩ },
   { minBounds := ⟨1, 1, 1⟩, maxBounds := ⟨2, 2, 2⟩ }]

/-- Sorted Morton records for `c2Objects`: all three keys equal. -/
def c2Codes : List (ℕ × ℤ) := [(5, 0), (5, 1), (5, 2)]

/-- The node buffer the GPU construction kernel produces on `c2Codes`. -/
def c2Nodes : List BVHNode := gpuConstructBVH c2Codes c2Objects 3

/-- Five coincident point-boxes at `(5,5,5)`. -/
def c8Objects : List RenderObject :=
  [{ minBounds := ⟨5, 5, 5⟩, maxBounds := ⟨5, 5, 5⟩ },
   { minBounds := ⟨5, 5, 5⟩, maxBounds := ⟨5, 5, 5⟩ },
   { minBounds := ⟨5, 5, 5⟩, maxBounds := ⟨5, 5, 5⟩ },
   { minBounds := ⟨5, 5, 5⟩, maxBounds := ⟨5, 5, 5⟩ },
   { minBounds := ⟨5, 5, 5⟩, maxBounds := ⟨5, 5, 5⟩ }]

/-- A 9-node hierarchy over `c8Objects` shaped as a 4-deep internal
chain, with all boxes stale at the origin. -/
def c8Nodes : List BVHNode :=
  [{ minBounds := ⟨0, 0, 0⟩, maxBounds := ⟨0, 0, 0⟩, leftChild := 1, rightChild := 2,
     isLeaf := false },
   { minBounds := ⟨0, 0, 0⟩, maxBounds := ⟨0, 0, 0⟩, leftChild := 3, rightChild := 4,
     isLeaf := false },
   { minBounds := ⟨0, 0, 0⟩, maxBounds := ⟨0, 0, 0⟩, objectIndex := 0, isLeaf := true },
   { minBounds := ⟨0, 0, 0⟩, maxBounds := ⟨0, 0, 0⟩, leftChild := 5, rightChild := 6,
     isLeaf := false },
   { minBounds := ⟨0, 0, 0⟩, maxBounds := ⟨0, 0, 0⟩, objectIndex := 1, isLeaf := true },
   { minBounds := ⟨0, 0, 0⟩, maxBounds := ⟨0, 0, 0⟩, leftChild := 7, rightChild := 8,
     isLeaf := false },
   { minBounds := ⟨0, 0, 0⟩, maxBounds := ⟨0, 0, 0⟩, objectIndex := 2, isLeaf := true },
   { minBounds := ⟨0, 0, 0⟩, maxBounds := ⟨0, 0, 0⟩, objectIndex := 3, isLeaf := true },
   { minBounds := ⟨0, 0, 0⟩, maxBounds := ⟨0, 0, 0⟩, objectIndex := 4, isLeaf := true }]

/-- A hand-written three-node hierarchy that is a fixed point of the
refit pass. -/
def c2FixObjects : List RenderObject :=
  [{ minBounds := ⟨0, 0, 0⟩, maxBounds := ⟨1, 1, 1⟩ },
   { minBounds := ⟨2, 0, 0⟩, maxBounds := ⟨3, 1, 1⟩ }]

/-- Nodes of the refit fixed-point example: two leaves and their exact
parent. -/
def c2FixNodes : List BVHNode :=
  [{ minBounds := ⟨0, 0, 0⟩, maxBounds := ⟨1, 1, 1⟩, objectIndex := 0, isLeaf := true },
   { minBounds := ⟨2, 0, 0⟩, maxBounds := ⟨3, 1, 1⟩, objectIndex := 1, isLeaf := true },
   { minBounds := ⟨0, 0, 0⟩, maxBounds := ⟨3, 1, 1⟩, leftChild := 0, rightChild := 1,
     objectIndex := -1, isLeaf := false }]

/-- The unit box `[0,1]^3`. -/
def unitBoxMin : Vector3 := ⟨0, 0, 0⟩

/-- The unit box `[0,1]^3`. -/
def unitBoxMax : Vector3 := ⟨1, 1, 1⟩

/-- A frustum whose first plane rejects everything with `x < 100`. -/
def rejectFrustum : Frustum := ⟨fun i => if i = 0 then ⟨1, 0, 0, -100⟩ else ⟨0, 0, 0, 1⟩⟩

/-- A frustum that accepts every box. -/
def acceptFrustum : Frustum := ⟨fun _ => ⟨0, 0, 0, 1⟩⟩

/-- One heavily occluded, currently visible object. -/
def c7Objects : List RenderObject :=
  [{ minBounds := ⟨0, 0, 0⟩, maxBounds := ⟨1, 1, 1⟩, visible := true,
     occludedFrameCount := 3 }]

/-- A valid one-leaf CPU hierarchy over `c7Objects`. -/
def c7State : CPUBVHSystem :=
  { bvhNodes := [leafNodeOf c7Objects 0], rootNode := 0 }

-- ==========================================================================
-- Bounds folds (the `minBounds`/`maxBounds` accumulation of
-- `BuildBVHRecursive`), abstracted over the combining operation.
-- ==========================================================================

section FoldOp

variable (op : Vector3 → Vector3 → Vector3) (f : ℕ → Vector3)

/-- Fold `op` over the `f`-images of a non-empty index list, seeded with
the first element (the `[]` case is dead). -/
def foldOver : List ℕ → Vector3
  | [] => default
  | i :: rest => rest.foldl (fun acc k => op acc (f k)) (f i)

end FoldOp

/-- The `minBounds` of object `i`. -/
def objMin (objects : List RenderObject) (i : ℕ) : Vector3 :=
  (lookup0 objects i).minBounds

/-- The `maxBounds` of object `i`. -/
def objMax (objects : List RenderObject) (i : ℕ) : Vector3 :=
  (lookup0 objects i).maxBounds

/-- Componentwise-min of the object boxes of a non-empty index list. -/
def foldMinB (objects : List RenderObject) (idxs : List ℕ) : Vector3 :=
  foldOver Vector3.vmin (objMin objects) idxs

/-- Componentwise-max of the object boxes of a non-empty index list. -/
def foldMaxB (objects : List RenderObject) (idxs : List ℕ) : Vector3 :=
  foldOver Vector3.vmax (objMax objects) idxs

-- ==========================================================================
-- Well-formed subtrees of a node array
-- ==========================================================================

/-- `IsSubtree nodes objects j os ns`: node `j` of `nodes` roots a
well-formed BVH subtree whose leaves carry exactly the object indices `os`
and whose nodes occupy exactly the indices `ns`.  Leaf `o` sits at node
index `o` and carries object `o`'s box; an internal node's box is the
union of its children's boxes. -/
inductive IsSubtree (nodes : List BVHNode) (objects : List RenderObject) :
    ℕ → List ℕ → List ℕ → Prop
  | leaf (o : ℕ) (ho : o < objects.length) (holen : o < nodes.length)
      (hnode : lookup0 nodes o = leafNodeOf objects o) :
      IsSubtree nodes objects o [o] [o]
  | internal (j l r : ℕ) (os1 ns1 os2 ns2 : List ℕ)
      (hj : j < nodes.length)
      (hleaf : (lookup0 nodes j).isLeaf = false)
      (hlc : (lookup0 nodes j).leftChild = (l : ℤ))
      (hrc : (lookup0 nodes j).rightChild = (r : ℤ))
      (h1 : IsSubtree nodes objects l os1 ns1)
      (h2 : IsSubtree nodes objects r os2 ns2)
      (hmin : (lookup0 nodes j).minBounds =
        Vector3.vmin (lookup0 nodes l).minBounds (lookup0 nodes r).minBounds)
      (hmax : (lookup0 nodes j).maxBounds =
        Vector3.vmax (lookup0 nodes l).maxBounds (lookup0 nodes r).maxBounds) :
      IsSubtree nodes objects j (os1 ++ os2) (j :: (ns1 ++ ns2))

-- ==========================================================================
-- Theorems
-- ==========================================================================

namespace Vector3

theorem le_refl (a : Vector3) : le a a := ⟨le_rfl, le_rfl, le_rfl⟩

theorem le_trans {a b c : Vector3} (h1 : le a b) (h2 : le b c) : le a c :=
  ⟨h1.1.trans h2.1, h1.2.1.trans h2.2.1, h1.2.2.trans h2.2.2⟩

theorem vmin_le_left (a b : Vector3) : le (vmin a b) a :=
  ⟨min_le_left _ _, min_le_left _ _, min_le_left _ _⟩

theorem vmin_le_right (a b : Vector3) : le (vmin a b) b :=
  ⟨min_le_right _ _, min_le_right _ _, min_le_right _ _⟩

theorem le_vmax_left (a b : Vector3) : le a (vmax a b) :=
  ⟨le_max_left _ _, le_max_left _ _, le_max_left _ _⟩

theorem le_vmax_right (a b : Vector3) : le b (vmax a b) :=
  ⟨le_max_right _ _, le_max_right _ _, le_max_right _ _⟩

theorem vmin_comm (a b : Vector3) : vmin a b = vmin b a := by
  simp [vmin, min_comm]

theorem vmax_comm (a b : Vector3) : vmax a b = vmax b a := by
  simp [vmax, max_comm]

theorem vmin_assoc (a b c : Vector3) : vmin (vmin a b) c = vmin a (vmin b c) := by
  simp [vmin, min_assoc]

theorem vmax_assoc (a b c : Vector3) : vmax (vmax a b) c = vmax a (vmax b c) := by
  simp [vmax, max_assoc]

theorem vmin_left_comm (a b c : Vector3) : vmin a (vmin b c) = vmin b (vmin a c) := by
  simp [vmin, min_left_comm]

theorem vmax_left_comm (a b c : Vector3) : vmax a (vmax b c) = vmax b (vmax a c) := by
  simp [vmax, max_left_comm]

end Vector3

namespace Frustum

theorem isBoxInFrustum_eq_false_iff (f : Frustum) (minB maxB : Vector3) :
    IsBoxInFrustum f minB maxB = false ↔
      ∃ i : Fin 6,
        planeDistance (f.planes i) (positiveVertex (f.planes i) minB maxB) < 0 := by
  unfold IsBoxInFrustum
  rw [← Bool.not_eq_true, List.all_eq_true]
  constructor
  · intro h
    by_contra hc
    push_neg at hc
    exact h fun i _ => by simpa using hc i
  · rintro ⟨i, hi⟩ h
    have := h i (List.mem_finRange i)
    simp at this
    exact absurd this (not_le.mpr hi)

theorem positiveVertex_mem_corners (p : Plane) (minB maxB : Vector3) :
    positiveVertex p minB maxB ∈ corners minB maxB := by
  unfold positiveVertex corners
  by_cases hx : p.x ≥ 0 <;> by_cases hy : p.y ≥ 0 <;> by_cases hz : p.z ≥ 0 <;>
    simp [hx, hy, hz]

theorem isBoxInFrustum_eq_true_iff (f : Frustum) (minB maxB : Vector3) :
    IsBoxInFrustum f minB maxB = true ↔
      ∀ i : Fin 6,
        0 ≤ planeDistance (f.planes i) (positiveVertex (f.planes i) minB maxB) := by
  unfold IsBoxInFrustum
  rw [List.all_eq_true]
  constructor
  · intro h i
    simpa using h i (List.mem_finRange i)
  · intro h i _
    simpa using h i

/-- The positive-vertex distance grows when the box grows: if the box
`[bmin,bmax]` is enclosed by `[cmin,cmax]` (componentwise), the enclosing
box's positive vertex is at least as far along every plane. -/
theorem planeDistance_positiveVertex_mono (p : Plane) {cmin cmax bmin bmax : Vector3}
    (h1 : Vector3.le cmin bmin) (h2 : Vector3.le bmax cmax) :
    planeDistance p (positiveVertex p bmin bmax) ≤
      planeDistance p (positiveVertex p cmin cmax) := by
  obtain ⟨h1x, h1y, h1z⟩ := h1
  obtain ⟨h2x, h2y, h2z⟩ := h2
  unfold planeDistance positiveVertex
  have hx : p.x * (if p.x ≥ 0 then bmax.x else bmin.x) ≤
      p.x * (if p.x ≥ 0 then cmax.x else cmin.x) := by
    by_cases hp : p.x ≥ 0 <;> simp only [hp, if_true, if_false]
    · exact mul_le_mul_of_nonneg_left h2x hp
    · exact mul_le_mul_of_nonpos_left h1x (le_of_not_le hp)
  have hy : p.y * (if p.y ≥ 0 then bmax.y else bmin.y) ≤
      p.y * (if p.y ≥ 0 then cmax.y else cmin.y) := by
    by_cases hp : p.y ≥ 0 <;> simp only [hp, if_true, if_false]
    · exact mul_le_mul_of_nonneg_left h2y hp
    · exact mul_le_mul_of_nonpos_left h1y (le_of_not_le hp)
  have hz : p.z * (if p.z ≥ 0 then bmax.z else bmin.z) ≤
      p.z * (if p.z ≥ 0 then cmax.z else cmin.z) := by
    by_cases hp : p.z ≥ 0 <;> simp only [hp, if_true, if_false]
    · exact mul_le_mul_of_nonneg_left h2z hp
    · exact mul_le_mul_of_nonpos_left h1z (le_of_not_le hp)
  simp only []
  linarith

/-- A box enclosed by a rejected box is rejected: the classifier is
monotone with respect to box enclosure. -/
theorem isBoxInFrustum_mono (f : Frustum) {cmin cmax bmin bmax : Vector3}
    (h1 : Vector3.le cmin bmin) (h2 : Vector3.le bmax cmax)
    (hout : IsBoxInFrustum f cmin cmax = false) :
    IsBoxInFrustum f bmin bmax = false := by
  rw [isBoxInFrustum_eq_false_iff] at hout ⊢
  obtain ⟨i, hi⟩ := hout
  exact ⟨i, lt_of_le_of_lt (planeDistance_positiveVertex_mono (f.planes i) h1 h2) hi⟩

end Frustum

theorem lookup0_append_left {α : Type} [Inhabited α] {l1 : List α} (l2 : List α)
    {i : ℕ} (h : i < l1.length) : lookup0 (l1 ++ l2) i = lookup0 l1 i := by
  unfold lookup0
  rw [List.getElem?_append_left h]

theorem lookup0_append_right {α : Type} [Inhabited α] (l1 : List α) (l2 : List α)
    {i : ℕ} (h : l1.length ≤ i) :
    lookup0 (l1 ++ l2) i = lookup0 l2 (i - l1.length) := by
  unfold lookup0
  rw [List.getElem?_append_right h]

theorem lookup0_set_eq {α : Type} [Inhabited α] {l : List α} {i : ℕ} (a : α)
    (h : i < l.length) : lookup0 (l.set i a) i = a := by
  unfold lookup0
  rw [List.getElem?_set_self h]
  rfl

theorem lookup0_set_ne {α : Type} [Inhabited α] (l : List α) {i j : ℕ} (a : α)
    (h : i ≠ j) : lookup0 (l.set i a) j = lookup0 l j := by
  unfold lookup0
  rw [List.getElem?_set_ne h]

theorem lookup0_of_getElem {α : Type} [Inhabited α] {l : List α} {i : ℕ}
    (h : i < l.length) : lookup0 l i = l[i] := by
  unfold lookup0
  rw [List.getElem?_eq_getElem h]
  rfl

theorem length_buildSorted (nodes : List BVHNode) (idxs : List ℕ) :
    (buildSorted nodes idxs).length = idxs.length :=
  List.length_insertionSort _ _

section FoldOp

variable (op : Vector3 → Vector3 → Vector3) (f : ℕ → Vector3)

theorem foldl_op_hoist
    (hassoc : ∀ a b c, op (op a b) c = op a (op b c))
    (l : List ℕ) (a b : Vector3) :
    l.foldl (fun acc k => op acc (f k)) (op a b) =
      op a (l.foldl (fun acc k => op acc (f k)) b) := by
  induction l generalizing b with
  | nil => rfl
  | cons k l ih =>
    simp only [List.foldl_cons]
    rw [hassoc]
    exact ih (op b (f k))

theorem foldl_op_perm
    (hcomm : ∀ a b, op a b = op b a)
    (hassoc : ∀ a b c, op (op a b) c = op a (op b c))
    {l l' : List ℕ} (h : l.Perm l') (a : Vector3) :
    l.foldl (fun acc k => op acc (f k)) a = l'.foldl (fun acc k => op acc (f k)) a := by
  induction h generalizing a with
  | nil => rfl
  | cons x _ ih => simp only [List.foldl_cons]; exact ih _
  | swap x y l =>
    simp only [List.foldl_cons]
    rw [hassoc, hassoc, hcomm (f y) (f x)]
  | trans _ _ ih1 ih2 => exact (ih1 a).trans (ih2 a)

theorem foldl_op_absorb
    (hcomm : ∀ a b, op a b = op b a)
    (hassoc : ∀ a b c, op (op a b) c = op a (op b c))
    (hidem : ∀ a, op a a = a)
    {l : List ℕ} {x : ℕ} (hx : x ∈ l) (a : Vector3) :
    l.foldl (fun acc k => op acc (f k)) a =
      l.foldl (fun acc k => op acc (f k)) (op a (f x)) := by
  induction l generalizing a with
  | nil => cases hx
  | cons k l ih =>
    simp only [List.foldl_cons]
    rcases List.mem_cons.mp hx with rfl | hx
    · rw [hassoc, hidem]
    · rw [ih hx (op a (f k)), hassoc, hcomm (f k) (f x), ← hassoc]

theorem foldOver_cons (i : ℕ) (rest : List ℕ) :
    foldOver op f (i :: rest) =
      rest.foldl (fun acc k => op acc (f k)) (f i) := rfl

theorem foldOver_eq_foldl
    (hidem : ∀ a, op a a = a)
    {l : List ℕ} (i : ℕ) (hne : l ≠ [])
    (hhead : l.headD i = i) :
    foldOver op f l = l.foldl (fun acc k => op acc (f k)) (f i) := by
  cases l with
  | nil => exact absurd rfl hne
  | cons j rest =>
    simp only [List.headD_cons] at hhead
    subst hhead
    simp only [foldOver_cons, List.foldl_cons]
    rw [hidem]

theorem foldOver_append
    (hassoc : ∀ a b c, op (op a b) c = op a (op b c))
    {l1 l2 : List ℕ} (h1 : l1 ≠ []) (h2 : l2 ≠ []) :
    foldOver op f (l1 ++ l2) = op (foldOver op f l1) (foldOver op f l2) := by
  cases l1 with
  | nil => exact absurd rfl h1
  | cons i r1 =>
    cases l2 with
    | nil => exact absurd rfl h2
    | cons j r2 =>
      simp only [List.cons_append, foldOver_cons, List.foldl_append, List.foldl_cons]
      rw [foldl_op_hoist op f hassoc r2
        (r1.foldl (fun acc k => op acc (f k)) (f i)) (f j)]

theorem foldOver_perm
    (hcomm : ∀ a b, op a b = op b a)
    (hassoc : ∀ a b c, op (op a b) c = op a (op b c))
    (hidem : ∀ a, op a a = a)
    {l l' : List ℕ} (h : l.Perm l') (hne : l ≠ []) :
    foldOver op f l = foldOver op f l' := by
  cases l with
  | nil => exact absurd rfl hne
  | cons i r =>
    have hne' : l' ≠ [] := by
      intro hnil
      rw [hnil] at h
      exact (List.cons_ne_nil i r) h.eq_nil
    cases l' with
    | nil => exact absurd rfl hne'
    | cons j r' =>
      have hi : i ∈ j :: r' := h.mem_iff.mp (List.mem_cons_self _ _)
      calc foldOver op f (i :: r)
          = (i :: r).foldl (fun acc k => op acc (f k)) (f i) := by
            simp only [foldOver_cons, List.foldl_cons]; rw [hidem]
        _ = (j :: r').foldl (fun acc k => op acc (f k)) (f i) :=
            foldl_op_perm op f hcomm hassoc h _
        _ = (j :: r').foldl (fun acc k => op acc (f k)) (op (f i) (f j)) :=
            foldl_op_absorb op f hcomm hassoc hidem (List.mem_cons_self _ _) _
        _ = (j :: r').foldl (fun acc k => op acc (f k)) (op (f j) (f i)) := by
            rw [hcomm]
        _ = (j :: r').foldl (fun acc k => op acc (f k)) (f j) :=
            (foldl_op_absorb op f hcomm hassoc hidem hi _).symm
        _ = foldOver op f (j :: r') := by
            simp only [foldOver_cons, List.foldl_cons]; rw [hidem]

end FoldOp

namespace IsSubtree

theorem root_lt {nodes objects j os ns} (h : IsSubtree nodes objects j os ns) :
    j < nodes.length := by
  cases h with
  | leaf _ _ holen _ => exact holen
  | internal _ _ _ _ _ _ _ hj _ _ _ _ _ _ _ => exact hj

theorem root_mem_ns {nodes objects j os ns} (h : IsSubtree nodes objects j os ns) :
    j ∈ ns := by
  cases h with
  | leaf => exact List.mem_cons_self _ _
  | internal => exact List.mem_cons_self _ _

theorem mem_ns_lt {nodes objects j os ns} (h : IsSubtree nodes objects j os ns) :
    ∀ k ∈ ns, k < nodes.length := by
  induction h with
  | leaf o ho holen hnode =>
    intro k hk
    rw [List.mem_singleton] at hk
    exact hk ▸ holen
  | internal j l r os1 ns1 os2 ns2 hj hleaf hlc hrc h1 h2 hmin hmax ih1 ih2 =>
    intro k hk
    rcases List.mem_cons.mp hk with rfl | hk
    · exact hj
    · rcases List.mem_append.mp hk with hk | hk
      · exact ih1 k hk
      · exact ih2 k hk

theorem ns_length {nodes objects j os ns} (h : IsSubtree nodes objects j os ns) :
    ns.length = 2 * os.length - 1 ∧ os ≠ [] := by
  induction h with
  | leaf => exact ⟨rfl, List.cons_ne_nil _ _⟩
  | internal j l r os1 ns1 os2 ns2 hj hleaf hlc hrc h1 h2 hmin hmax ih1 ih2 =>
    obtain ⟨hl1, hne1⟩ := ih1
    obtain ⟨hl2, hne2⟩ := ih2
    constructor
    · have o1 : 1 ≤ os1.length := List.length_pos.mpr hne1
      have o2 : 1 ≤ os2.length := List.length_pos.mpr hne2
      simp only [List.length_cons, List.length_append, hl1, hl2]
      omega
    · simp [hne1]

/-- Subtree derivations survive any modification of the array that leaves
the subtree's own slots unchanged (and does not shrink the array). -/
theorem mono {nodes nodes' : List BVHNode} {objects j os ns}
    (h : IsSubtree nodes objects j os ns)
    (hlen : nodes.length ≤ nodes'.length)
    (hagree : ∀ k ∈ ns, lookup0 nodes' k = lookup0 nodes k) :
    IsSubtree nodes' objects j os ns := by
  induction h with
  | leaf o ho holen hnode =>
    exact leaf o ho (lt_of_lt_of_le holen hlen)
      ((hagree o (List.mem_cons_self _ _)).trans hnode)
  | internal j l r os1 ns1 os2 ns2 hj hleaf hlc hrc h1 h2 hmin hmax ih1 ih2 =>
    have hagree1 : ∀ k ∈ ns1, lookup0 nodes' k = lookup0 nodes k := fun k hk =>
      hagree k (List.mem_cons_of_mem _ (List.mem_append_left _ hk))
    have hagree2 : ∀ k ∈ ns2, lookup0 nodes' k = lookup0 nodes k := fun k hk =>
      hagree k (List.mem_cons_of_mem _ (List.mem_append_right _ hk))
    have hj' : lookup0 nodes' j = lookup0 nodes j := hagree j (List.mem_cons_self _ _)
    have hl' : lookup0 nodes' l = lookup0 nodes l := hagree1 l h1.root_mem_ns
    have hr' : lookup0 nodes' r = lookup0 nodes r := hagree2 r h2.root_mem_ns
    exact internal j l r os1 ns1 os2 ns2 (lt_of_lt_of_le hj hlen)
      (hj' ▸ hleaf) (hj' ▸ hlc) (hj' ▸ hrc)
      (ih1 hagree1) (ih2 hagree2)
      (by rw [hj', hl', hr']; exact hmin)
      (by rw [hj', hl', hr']; exact hmax)

/-- Every object in a subtree has its box enclosed by the subtree root's
box (componentwise). -/
theorem bounds_contain {nodes objects j os ns} (h : IsSubtree nodes objects j os ns) :
    ∀ o ∈ os,
      Vector3.le (lookup0 nodes j).minBounds (objMin objects o) ∧
      Vector3.le (objMax objects o) (lookup0 nodes j).maxBounds := by
  induction h with
  | leaf o ho holen hnode =>
    intro o' ho'
    rw [List.mem_singleton] at ho'
    subst ho'
    rw [hnode]
    exact ⟨Vector3.le_refl _, Vector3.le_refl _⟩
  | internal j l r os1 ns1 os2 ns2 hj hleaf hlc hrc h1 h2 hmin hmax ih1 ih2 =>
    intro o ho
    rcases List.mem_append.mp ho with ho | ho
    · obtain ⟨hm, hM⟩ := ih1 o ho
      constructor
      · exact Vector3.le_trans (hmin ▸ Vector3.vmin_le_left _ _) hm
      · exact Vector3.le_trans hM (hmax ▸ Vector3.le_vmax_left _ _)
    · obtain ⟨hm, hM⟩ := ih2 o ho
      constructor
      · exact Vector3.le_trans (hmin ▸ Vector3.vmin_le_right _ _) hm
      · exact Vector3.le_trans hM (hmax ▸ Vector3.le_vmax_right _ _)

/-- Every node index of a subtree roots its own sub-derivation. -/
theorem sub_derivation {nodes objects j os ns} (h : IsSubtree nodes objects j os ns) :
    ∀ k ∈ ns, ∃ os' ns', IsSubtree nodes objects k os' ns' := by
  induction h with
  | leaf o ho holen hnode =>
    intro k hk
    rw [List.mem_singleton] at hk
    exact hk ▸ ⟨[o], [o], leaf o ho holen hnode⟩
  | internal j l r os1 ns1 os2 ns2 hj hleaf hlc hrc h1 h2 hmin hmax ih1 ih2 =>
    intro k hk
    rcases List.mem_cons.mp hk with rfl | hk
    · exact ⟨_, _, internal _ l r os1 ns1 os2 ns2 hj hleaf hlc hrc h1 h2 hmin hmax⟩
    · rcases List.mem_append.mp hk with hk | hk
      · exact ih1 k hk
      · exact ih2 k hk

end IsSubtree

theorem RenderObject.set_visible_eta (o : RenderObject) :
    { o with visible := o.visible } = o := by
  cases o; rfl

theorem foldl_congr_mem {α β : Type} {l : List β} {f g : α → β → α}
    (h : ∀ a x, x ∈ l → f a x = g a x) : ∀ a, l.foldl f a = l.foldl g a := by
  induction l with
  | nil => intro a; rfl
  | cons x l ih =>
    intro a
    simp only [List.foldl_cons]
    rw [h a x (List.mem_cons_self _ _)]
    exact ih (fun a y hy => h a y (List.mem_cons_of_mem _ hy)) _

/-- The `minBounds` accumulation of `BuildBVHRecursive` computes the
componentwise min of the object boxes when the node array holds the
leaves. -/
theorem buildFoldMin_eq (objects : List RenderObject) (nodes : List BVHNode)
    (idxs : List ℕ) (hne : idxs ≠ [])
    (hmem : ∀ i ∈ idxs, i < objects.length)
    (hleaves : ∀ i, i < objects.length → lookup0 nodes i = leafNodeOf objects i) :
    buildMinB nodes idxs = foldMinB objects idxs := by
  unfold buildMinB
  cases idxs with
  | nil => exact absurd rfl hne
  | cons i0 rest =>
    simp only [List.headD_cons, List.tail_cons]
    have h0 : (lookup0 nodes i0).minBounds = objMin objects i0 := by
      rw [hleaves i0 (hmem i0 (List.mem_cons_self _ _))]; rfl
    rw [h0]
    have hcg : rest.foldl (fun acc i => Vector3.vmin acc (lookup0 nodes i).minBounds)
        (objMin objects i0) =
        rest.foldl (fun acc i => Vector3.vmin acc (objMin objects i)) (objMin objects i0) := by
      refine foldl_congr_mem (fun a x hx => ?_) _
      rw [hleaves x (hmem x (List.mem_cons_of_mem _ hx))]
      rfl
    rw [hcg]
    rfl

/-- Same for the `maxBounds` accumulation. -/
theorem buildFoldMax_eq (objects : List RenderObject) (nodes : List BVHNode)
    (idxs : List ℕ) (hne : idxs ≠ [])
    (hmem : ∀ i ∈ idxs, i < objects.length)
    (hleaves : ∀ i, i < objects.length → lookup0 nodes i = leafNodeOf objects i) :
    buildMaxB nodes idxs = foldMaxB objects idxs := by
  unfold buildMaxB
  cases idxs with
  | nil => exact absurd rfl hne
  | cons i0 rest =>
    simp only [List.headD_cons, List.tail_cons]
    have h0 : (lookup0 nodes i0).maxBounds = objMax objects i0 := by
      rw [hleaves i0 (hmem i0 (List.mem_cons_self _ _))]; rfl
    rw [h0]
    have hcg : rest.foldl (fun acc i => Vector3.vmax acc (lookup0 nodes i).maxBounds)
        (objMax objects i0) =
        rest.foldl (fun acc i => Vector3.vmax acc (objMax objects i)) (objMax objects i0) := by
      refine foldl_congr_mem (fun a x hx => ?_) _
      rw [hleaves x (hmem x (List.mem_cons_of_mem _ hx))]
      rfl
    rw [hcg]
    rfl

/-- Full characterisation of `BuildBVHRecursive`: array growth, prefix
preservation, returned root index, a well-formed subtree whose object
list is a permutation of the input indices, and the root's box. -/
theorem buildBVHRecursive_spec (objects : List RenderObject) :
    ∀ (n : ℕ) (idxs : List ℕ) (nodes : List BVHNode),
      idxs.length = n → idxs ≠ [] →
      (∀ i ∈ idxs, i < objects.length) →
      objects.length ≤ nodes.length →
      (∀ i, i < objects.length → lookup0 nodes i = leafNodeOf objects i) →
      (buildBVHRecursive nodes idxs).1.length = nodes.length + (idxs.length - 1) ∧
      (∀ j, j < nodes.length →
        lookup0 (buildBVHRecursive nodes idxs).1 j = lookup0 nodes j) ∧
      (buildBVHRecursive nodes idxs).2 =
        (if idxs.length = 1 then idxs.headD 0 else nodes.length) ∧
      (∃ os ns, os.Perm idxs ∧
        IsSubtree (buildBVHRecursive nodes idxs).1 objects
          (buildBVHRecursive nodes idxs).2 os ns ∧
        (∀ k ∈ ns, k < objects.length ∨ nodes.length ≤ k) ∧
        (∀ j2, nodes.length ≤ j2 → j2 < (buildBVHRecursive nodes idxs).1.length →
          j2 ∈ ns)) ∧
      (lookup0 (buildBVHRecursive nodes idxs).1
        (buildBVHRecursive nodes idxs).2).minBounds = foldMinB objects idxs ∧
      (lookup0 (buildBVHRecursive nodes idxs).1
        (buildBVHRecursive nodes idxs).2).maxBounds = foldMaxB objects idxs := by
  intro n
  induction n using Nat.strong_induction_on with
  | _ n ih =>
  intro idxs nodes hn hne hmem hbase hleaves
  by_cases hlen1 : idxs.length ≤ 1
  · -- the size-1 base case: return the sole leaf index, no node created
    obtain ⟨i0, rfl⟩ : ∃ i0, idxs = [i0] := by
      cases idxs with
      | nil => exact absurd rfl hne
      | cons a t =>
        cases t with
        | nil => exact ⟨a, rfl⟩
        | cons b t' => simp at hlen1
    have hres : buildBVHRecursive nodes [i0] = (nodes, i0) := by
      rw [buildBVHRecursive]
      simp
    rw [hres]
    have hi0 : i0 < objects.length := hmem i0 (List.mem_cons_self _ _)
    refine ⟨by simp, fun j _ => rfl, by simp, ?_, ?_, ?_⟩
    · refine ⟨[i0], [i0], List.Perm.refl _,
        IsSubtree.leaf i0 hi0 (lt_of_lt_of_le hi0 hbase) (hleaves i0 hi0), ?_, ?_⟩
      · intro k hk
        rw [List.mem_singleton] at hk
        subst hk
        exact Or.inl hi0
      · intro j2 hj2a hj2b
        have hj2b' : j2 < nodes.length := hj2b
        omega
    · rw [hleaves i0 hi0]; rfl
    · rw [hleaves i0 hi0]; rfl
  · -- the recursive case
    push_neg at hlen1
    have hlen2 : 2 ≤ idxs.length := hlen1
    -- abbreviations matching the definition
    set srt := buildSorted nodes idxs with hsrt
    set mid := idxs.length / 2 with hmid
    set intNode : BVHNode :=
      { minBounds := buildMinB nodes idxs, maxBounds := buildMaxB nodes idxs,
        isLeaf := false } with hintNode
    set nodes1 := nodes ++ [intNode] with hnodes1
    set res1 := buildBVHRecursive nodes1 (srt.take mid) with hres1
    set nodes3 := res1.1.set nodes.length
      { lookup0 res1.1 nodes.length with leftChild := (res1.2 : ℤ) } with hnodes3
    set res2 := buildBVHRecursive nodes3 (srt.drop mid) with hres2
    have hres : buildBVHRecursive nodes idxs =
        (res2.1.set nodes.length
          { lookup0 res2.1 nodes.length with rightChild := (res2.2 : ℤ) },
         nodes.length) := by
      rw [buildBVHRecursive]
      rw [dif_neg (by omega)]
    rw [hres]
    -- length bookkeeping
    have hsrtlen : srt.length = idxs.length := length_buildSorted nodes idxs
    have hsrtperm : srt.Perm idxs := List.perm_insertionSort _ idxs
    have hmid1 : 1 ≤ mid := by omega
    have hmidlt : mid < idxs.length := by omega
    have hleftlen : (srt.take mid).length = mid := by
      rw [List.length_take]
      omega
    have hrightlen : (srt.drop mid).length = idxs.length - mid := by
      rw [List.length_drop]
      omega
    have hleftne : srt.take mid ≠ [] := by
      intro hc
      have := congrArg List.length hc
      rw [hleftlen] at this
      simp at this
      omega
    have hrightne : srt.drop mid ≠ [] := by
      intro hc
      have := congrArg List.length hc
      rw [hrightlen] at this
      simp at this
      omega
    have hmemsrt : ∀ i ∈ srt, i < objects.length := fun i hi =>
      hmem i (hsrtperm.mem_iff.mp hi)
    have hmemleft : ∀ i ∈ srt.take mid, i < objects.length := fun i hi =>
      hmemsrt i (List.mem_of_mem_take hi)
    have hmemright : ∀ i ∈ srt.drop mid, i < objects.length := fun i hi =>
      hmemsrt i (List.mem_of_mem_drop hi)
    have hn1len : nodes1.length = nodes.length + 1 := by
      rw [hnodes1]
      simp
    have hbase1 : objects.length ≤ nodes1.length := by omega
    have hleaves1 : ∀ i, i < objects.length → lookup0 nodes1 i = leafNodeOf objects i := by
      intro i hi
      rw [hnodes1, lookup0_append_left _ (lt_of_lt_of_le hi hbase)]
      exact hleaves i hi
    -- first recursive call
    obtain ⟨A1, B1, C1, ⟨os1, ns1, hperm1, hsub1, hrange1, hcover1⟩, E1min, E1max⟩ :=
      ih mid (by omega) (srt.take mid) nodes1 hleftlen hleftne hmemleft hbase1 hleaves1
    rw [← hres1] at A1 B1 C1 hsub1 hcover1 E1min E1max
    have hnodeIdx_lt1 : nodes.length < nodes1.length := by omega
    have hlook1 : lookup0 res1.1 nodes.length = intNode := by
      rw [B1 nodes.length hnodeIdx_lt1, hnodes1,
        lookup0_append_right _ _ (le_refl nodes.length)]
      simp [lookup0]
    have hA1' : res1.1.length = nodes.length + 1 + (mid - 1) := by
      rw [A1, hn1len, hleftlen]
    have hn3len : nodes3.length = res1.1.length := by
      rw [hnodes3]
      simp
    have hbase3 : objects.length ≤ nodes3.length := by omega
    have hnodeIdx_lt3 : nodes.length < nodes3.length := by omega
    have hleaves3 : ∀ i, i < objects.length → lookup0 nodes3 i = leafNodeOf objects i := by
      intro i hi
      rw [hnodes3, lookup0_set_ne _ _ (by omega : nodes.length ≠ i)]
      rw [B1 i (by omega)]
      exact hleaves1 i hi
    -- second recursive call
    obtain ⟨A2, B2, C2, ⟨os2, ns2, hperm2, hsub2, hrange2, hcover2⟩, E2min, E2max⟩ :=
      ih (idxs.length - mid) (by omega) (srt.drop mid) nodes3 hrightlen hrightne
        hmemright hbase3 hleaves3
    rw [← hres2] at A2 B2 C2 hsub2 hcover2 E2min E2max
    have hA2' : res2.1.length = nodes.length + (idxs.length - 1) := by
      rw [A2, hn3len, hA1', hrightlen]
      omega
    have hlook3 : lookup0 nodes3 nodes.length =
        { intNode with leftChild := (res1.2 : ℤ) } := by
      rw [hnodes3, lookup0_set_eq _ (by omega), hlook1]
    have hlookr2 : lookup0 res2.1 nodes.length =
        { intNode with leftChild := (res1.2 : ℤ) } := by
      rw [B2 nodes.length (by omega), hlook3]
    -- the final array
    set nodes5 := res2.1.set nodes.length
      { lookup0 res2.1 nodes.length with rightChild := (res2.2 : ℤ) } with hnodes5
    have hn5len : nodes5.length = res2.1.length := by
      rw [hnodes5]
      simp
    have hlook5 : lookup0 nodes5 nodes.length =
        { intNode with leftChild := (res1.2 : ℤ), rightChild := (res2.2 : ℤ) } := by
      rw [hnodes5, lookup0_set_eq _ (by omega), hlookr2]
    -- lookups of older slots in the final array
    have hstable2 : ∀ k, k ≠ nodes.length → lookup0 nodes5 k = lookup0 res2.1 k := by
      intro k hk
      rw [hnodes5, lookup0_set_ne _ _ (Ne.symm hk)]
    have hstable1 : ∀ k, k ≠ nodes.length → k < res1.1.length →
        lookup0 nodes5 k = lookup0 res1.1 k := by
      intro k hk hklt
      rw [hstable2 k hk, B2 k (by omega), hnodes3, lookup0_set_ne _ _ (Ne.symm hk)]
    -- the two subtrees survive into the final array
    have hns1lt : ∀ k ∈ ns1, k < res1.1.length := hsub1.mem_ns_lt
    have hns2lt : ∀ k ∈ ns2, k < res2.1.length := hsub2.mem_ns_lt
    have hns1ne : ∀ k ∈ ns1, k ≠ nodes.length := by
      intro k hk
      rcases hrange1 k hk with h | h
      · omega
      · omega
    have hns2ne : ∀ k ∈ ns2, k ≠ nodes.length := by
      intro k hk
      rcases hrange2 k hk with h | h
      · omega
      · omega
    have hsub1' : IsSubtree nodes5 objects res1.2 os1 ns1 := by
      refine hsub1.mono (by omega) ?_
      intro k hk
      exact hstable1 k (hns1ne k hk) (hns1lt k hk)
    have hsub2' : IsSubtree nodes5 objects res2.2 os2 ns2 := by
      refine hsub2.mono (by omega) ?_
      intro k hk
      exact hstable2 k (hns2ne k hk)
    -- roots of the subtrees and their boxes in the final array
    have hroot1mem : res1.2 ∈ ns1 := hsub1.root_mem_ns
    have hroot2mem : res2.2 ∈ ns2 := hsub2.root_mem_ns
    have hlookml : lookup0 nodes5 res1.2 = lookup0 res1.1 res1.2 :=
      hstable1 res1.2 (hns1ne _ hroot1mem) (hns1lt _ hroot1mem)
    have hlookmr : lookup0 nodes5 res2.2 = lookup0 res2.1 res2.2 :=
      hstable2 res2.2 (hns2ne _ hroot2mem)
    -- box of the parent equals union of the children's boxes
    have hsplit : srt.take mid ++ srt.drop mid = srt := List.take_append_drop _ _
    have hminsplit : foldMinB objects idxs =
        Vector3.vmin (foldMinB objects (srt.take mid)) (foldMinB objects (srt.drop mid)) := by
      unfold foldMinB
      have h1 : foldOver Vector3.vmin (objMin objects) idxs =
          foldOver Vector3.vmin (objMin objects) srt :=
        foldOver_perm Vector3.vmin (objMin objects) Vector3.vmin_comm
          Vector3.vmin_assoc (fun a => by simp [Vector3.vmin]) hsrtperm.symm hne
      have h2 : foldOver Vector3.vmin (objMin objects) srt =
          Vector3.vmin (foldOver Vector3.vmin (objMin objects) (srt.take mid))
            (foldOver Vector3.vmin (objMin objects) (srt.drop mid)) := by
        conv_lhs => rw [← hsplit]
        exact foldOver_append Vector3.vmin (objMin objects) Vector3.vmin_assoc
          hleftne hrightne
      exact h1.trans h2
    have hmaxsplit : foldMaxB objects idxs =
        Vector3.vmax (foldMaxB objects (srt.take mid)) (foldMaxB objects (srt.drop mid)) := by
      unfold foldMaxB
      have h1 : foldOver Vector3.vmax (objMax objects) idxs =
          foldOver Vector3.vmax (objMax objects) srt :=
        foldOver_perm Vector3.vmax (objMax objects) Vector3.vmax_comm
          Vector3.vmax_assoc (fun a => by simp [Vector3.vmax]) hsrtperm.symm hne
      have h2 : foldOver Vector3.vmax (objMax objects) srt =
          Vector3.vmax (foldOver Vector3.vmax (objMax objects) (srt.take mid))
            (foldOver Vector3.vmax (objMax objects) (srt.drop mid)) := by
        conv_lhs => rw [← hsplit]
        exact foldOver_append Vector3.vmax (objMax objects) Vector3.vmax_assoc
          hleftne hrightne
      exact h1.trans h2
    have hbmin : buildMinB nodes idxs = foldMinB objects idxs :=
      buildFoldMin_eq objects nodes idxs hne hmem hleaves
    have hbmax : buildMaxB nodes idxs = foldMaxB objects idxs :=
      buildFoldMax_eq objects nodes idxs hne hmem hleaves
    -- assemble the parent derivation
    have hparent : IsSubtree nodes5 objects nodes.length (os1 ++ os2)
        (nodes.length :: (ns1 ++ ns2)) := by
      refine IsSubtree.internal nodes.length res1.2 res2.2 os1 ns1 os2 ns2
        (by omega) (by rw [hlook5]) (by rw [hlook5]) (by rw [hlook5])
        hsub1' hsub2' ?_ ?_
      · rw [hlook5, hlookml, hlookmr, E1min, E2min]
        show buildMinB nodes idxs = _
        rw [hbmin, hminsplit]
      · rw [hlook5, hlookml, hlookmr, E1max, E2max]
        show buildMaxB nodes idxs = _
        rw [hbmax, hmaxsplit]
    -- final conjunction
    refine ⟨?_, ?_, ?_, ?_, ?_, ?_⟩
    · show nodes5.length = _
      omega
    · intro j hj
      show lookup0 nodes5 j = lookup0 nodes j
      rw [hstable1 j (by omega) (by omega), B1 j (by omega), hnodes1,
        lookup0_append_left _ (by omega)]
    · show nodes.length = _
      rw [if_neg (by omega)]
    · refine ⟨os1 ++ os2, nodes.length :: (ns1 ++ ns2), ?_, hparent, ?_, ?_⟩
      · refine ((hperm1.append hperm2).trans ?_)
        rw [hsplit]
        exact hsrtperm
      · intro k hk
        rcases List.mem_cons.mp hk with rfl | hk
        · exact Or.inr (le_refl _)
        · rcases List.mem_append.mp hk with hk | hk
          · rcases hrange1 k hk with h | h
            · exact Or.inl h
            · exact Or.inr (by omega)
          · rcases hrange2 k hk with h | h
            · exact Or.inl h
            · exact Or.inr (by omega)
      · intro j2 hj2a hj2b
        show j2 ∈ _
        rw [hn5len] at hj2b
        rcases eq_or_ne j2 nodes.length with rfl | hne2
        · exact List.mem_cons_self _ _
        · refine List.mem_cons_of_mem _ (List.mem_append.mpr ?_)
          by_cases hj2c : j2 < res1.1.length
          · exact Or.inl (hcover1 j2 (by omega) hj2c)
          · exact Or.inr (hcover2 j2 (by omega) (by omega))
    · show (lookup0 nodes5 nodes.length).minBounds = _
      rw [hlook5]
      show buildMinB nodes idxs = _
      exact hbmin
    · show (lookup0 nodes5 nodes.length).maxBounds = _
      rw [hlook5]
      show buildMaxB nodes idxs = _
      exact hbmax

/-- What one `FrustumCullBVH` call does on a well-formed subtree: it ors
into each object's visibility flag the conjunction "the object belongs to
this subtree and its own box passes the frustum test". -/
theorem frustumCullBVH_spec {nodes : List BVHNode} {objects : List RenderObject}
    (frustum : Frustum) {j : ℕ} {os ns : List ℕ}
    (h : IsSubtree nodes objects j os ns) :
    ∀ (fuel : ℕ), ns.length ≤ fuel →
    ∀ (vis : List RenderObject), vis.length = objects.length →
      (CPUBVHSystem.FrustumCullBVH nodes frustum fuel (j : ℤ) vis).length = vis.length ∧
      ∀ k < vis.length,
        lookup0 (CPUBVHSystem.FrustumCullBVH nodes frustum fuel (j : ℤ) vis) k =
          { lookup0 vis k with
            visible := (lookup0 vis k).visible ||
              (decide (k ∈ os) &&
                Frustum.IsBoxInFrustum frustum (objMin objects k) (objMax objects k)) } := by
  induction h with
  | leaf o ho holen hnode =>
    intro fuel hfuel vis hlen
    obtain ⟨f, rfl⟩ : ∃ f, fuel = f + 1 := by
      cases fuel with
      | zero => simp at hfuel
      | succ f => exact ⟨f, rfl⟩
    have hguard : ¬((o : ℤ) < 0 ∨ (nodes.length : ℤ) ≤ (o : ℤ)) := by
      push_neg
      exact ⟨Int.natCast_nonneg o, by exact_mod_cast holen⟩
    have htn : ((o : ℤ)).toNat = o := Int.toNat_natCast o
    have ho' : o < vis.length := by rw [hlen]; exact ho
    by_cases hpass : Frustum.IsBoxInFrustum frustum (objMin objects o) (objMax objects o)
    · have hres : CPUBVHSystem.FrustumCullBVH nodes frustum (f + 1) (o : ℤ) vis =
          CPUBVHSystem.setVisibleTrue vis o := by
        simp only [CPUBVHSystem.FrustumCullBVH, htn, hnode]
        rw [if_neg hguard]
        rw [if_neg (not_not_intro (show Frustum.IsBoxInFrustum frustum
          (leafNodeOf objects o).minBounds (leafNodeOf objects o).maxBounds = true from hpass))]
        rw [if_pos (show (leafNodeOf objects o).isLeaf = true from rfl)]
        rw [if_pos (show (0 : ℤ) ≤ (leafNodeOf objects o).objectIndex ∧
          (leafNodeOf objects o).objectIndex < (vis.length : ℤ) from
          ⟨Int.natCast_nonneg o,
            show (o : ℤ) < (vis.length : ℤ) by exact_mod_cast ho'⟩)]
        show CPUBVHSystem.setVisibleTrue vis ((o : ℤ)).toNat = _
        rw [htn]
      rw [hres]
      constructor
      · simp [CPUBVHSystem.setVisibleTrue]
      · intro k hk
        unfold CPUBVHSystem.setVisibleTrue
        rcases eq_or_ne k o with rfl | hko
        · rw [lookup0_set_eq _ ho']
          simp [hpass]
        · rw [lookup0_set_ne _ _ (Ne.symm hko)]
          have hd : decide (k ∈ [o]) = false := by simp [hko]
          rw [hd]
          simp [RenderObject.set_visible_eta]
    · have hbox : Frustum.IsBoxInFrustum frustum (leafNodeOf objects o).minBounds
          (leafNodeOf objects o).maxBounds = false := by
        simpa [objMin, objMax, leafNodeOf] using hpass
      have hres : CPUBVHSystem.FrustumCullBVH nodes frustum (f + 1) (o : ℤ) vis = vis := by
        simp only [CPUBVHSystem.FrustumCullBVH, htn, hnode]
        rw [if_neg hguard]
        rw [if_pos (by simp [hbox])]
      rw [hres]
      refine ⟨rfl, fun k hk => ?_⟩
      rcases eq_or_ne k o with rfl | hko
      · have hp : Frustum.IsBoxInFrustum frustum (objMin objects k) (objMax objects k)
            = false := by simpa using hpass
        rw [hp]
        simp [RenderObject.set_visible_eta]
      · have hd : decide (k ∈ [o]) = false := by simp [hko]
        rw [hd]
        simp [RenderObject.set_visible_eta]
  | internal j l r os1 ns1 os2 ns2 hj hleaf hlc hrc h1 h2 hmin hmax ih1 ih2 =>
    intro fuel hfuel vis hlen
    obtain ⟨f, rfl⟩ : ∃ f, fuel = f + 1 := by
      cases fuel with
      | zero => simp at hfuel
      | succ f => exact ⟨f, rfl⟩
    have hf1 : ns1.length ≤ f := by
      simp only [List.length_cons, List.length_append] at hfuel
      omega
    have hf2 : ns2.length ≤ f := by
      simp only [List.length_cons, List.length_append] at hfuel
      omega
    have hguard : ¬((j : ℤ) < 0 ∨ (nodes.length : ℤ) ≤ (j : ℤ)) := by
      push_neg
      exact ⟨Int.natCast_nonneg j, by exact_mod_cast hj⟩
    have htn : ((j : ℤ)).toNat = j := Int.toNat_natCast j
    by_cases hpass : Frustum.IsBoxInFrustum frustum (lookup0 nodes j).minBounds
        (lookup0 nodes j).maxBounds
    · have hres : CPUBVHSystem.FrustumCullBVH nodes frustum (f + 1) (j : ℤ) vis =
          CPUBVHSystem.FrustumCullBVH nodes frustum f (r : ℤ)
            (CPUBVHSystem.FrustumCullBVH nodes frustum f (l : ℤ) vis) := by
        simp only [CPUBVHSystem.FrustumCullBVH, htn]
        rw [if_neg hguard]
        rw [if_neg (not_not_intro hpass)]
        rw [if_neg (by simp [hleaf])]
        rw [hlc, hrc]
      rw [hres]
      obtain ⟨hlen1, hfun1⟩ := ih1 f hf1 vis hlen
      obtain ⟨hlen2, hfun2⟩ := ih2 f hf2 _ (hlen1.trans hlen)
      refine ⟨hlen2.trans hlen1, fun k hk => ?_⟩
      have hk1 : k < (CPUBVHSystem.FrustumCullBVH nodes frustum f (↑l) vis).length := by
        rw [hlen1]; exact hk
      rw [hfun2 k hk1, hfun1 k hk]
      have hmem : decide (k ∈ os1 ++ os2) = (decide (k ∈ os1) || decide (k ∈ os2)) := by
        simp [List.mem_append]
      rw [hmem]
      cases hv : (lookup0 vis k).visible <;>
        cases hp : Frustum.IsBoxInFrustum frustum (objMin objects k) (objMax objects k) <;>
        cases h1m : decide (k ∈ os1) <;> cases h2m : decide (k ∈ os2) <;> simp
    · have hfail : Frustum.IsBoxInFrustum frustum (lookup0 nodes j).minBounds
          (lookup0 nodes j).maxBounds = false := by simpa using hpass
      have hres : CPUBVHSystem.FrustumCullBVH nodes frustum (f + 1) (j : ℤ) vis = vis := by
        simp only [CPUBVHSystem.FrustumCullBVH, htn]
        rw [if_neg hguard]
        rw [if_pos (by simp [hfail])]
      rw [hres]
      refine ⟨rfl, fun k hk => ?_⟩
      by_cases hmemk : k ∈ os1 ++ os2
      · have hparent : IsSubtree nodes objects j (os1 ++ os2) (j :: (ns1 ++ ns2)) :=
          IsSubtree.internal j l r os1 ns1 os2 ns2 hj hleaf hlc hrc h1 h2 hmin hmax
        obtain ⟨hcm, hcM⟩ := hparent.bounds_contain k hmemk
        have hp : Frustum.IsBoxInFrustum frustum (objMin objects k) (objMax objects k)
            = false := Frustum.isBoxInFrustum_mono frustum hcm hcM hfail
        rw [hp]
        simp [RenderObject.set_visible_eta]
      · have hd : decide (k ∈ os1 ++ os2) = false := by simpa using hmemk
        rw [hd]
        simp [RenderObject.set_visible_eta]

theorem lookup0_map_range {α : Type} [Inhabited α] (f : ℕ → α) {n i : ℕ} (h : i < n) :
    lookup0 ((List.range n).map f) i = f i := by
  rw [lookup0_of_getElem (by simpa using h)]
  simp

/-- A prefix of a list all of whose slots are pointwise given by `f`. -/
theorem take_eq_map_range {α : Type} [Inhabited α] {l : List α} {n : ℕ} (f : ℕ → α)
    (hn : n ≤ l.length) (h : ∀ j, j < n → lookup0 l j = f j) :
    l.take n = (List.range n).map f := by
  apply List.ext_getElem
  · simp
    omega
  · intro j h1 h2
    have hj : j < n := by
      simp at h1
      omega
    rw [List.getElem_take, List.getElem_map, List.getElem_range]
    have := h j hj
    rw [lookup0_of_getElem (by omega)] at this
    exact this

/-- Characterisation of `CPUBVHSystem::BuildBVH` on a non-empty object
list in terms of the recursion spec. -/
theorem CPUBVHSystem.buildBVH_spec (s : CPUBVHSystem) (objects : List RenderObject)
    (hne : objects ≠ []) :
    (s.BuildBVH objects).bvhNodes.length = 2 * objects.length - 1 ∧
    (∀ j, j < objects.length →
      lookup0 (s.BuildBVH objects).bvhNodes j = leafNodeOf objects j) ∧
    (s.BuildBVH objects).rootNode =
      (((if objects.length = 1 then 0 else objects.length) : ℕ) : ℤ) ∧
    ∃ os ns, os.Perm (List.range objects.length) ∧
      IsSubtree (s.BuildBVH objects).bvhNodes objects
        ((s.BuildBVH objects).rootNode).toNat os ns ∧
      ns.length = 2 * objects.length - 1 ∧
      (∀ j2, objects.length ≤ j2 → j2 < (s.BuildBVH objects).bvhNodes.length →
        j2 ∈ ns) := by
  have hN : 1 ≤ objects.length := List.length_pos.mpr hne
  have hrange_ne : (List.range objects.length) ≠ [] := by
    intro hc
    rw [List.range_eq_nil] at hc
    omega
  obtain ⟨A, B, C, ⟨os, ns, hperm, hsub, hrange, hcover⟩, _, _⟩ :=
    buildBVHRecursive_spec objects (List.range objects.length).length
      (List.range objects.length)
      ((List.range objects.length).map (leafNodeOf objects)) rfl
      hrange_ne (fun i hi => List.mem_range.mp hi)
      (by simp)
      (fun i hi => lookup0_map_range _ hi)
  have hleavlen : ((List.range objects.length).map (leafNodeOf objects)).length
      = objects.length := by simp
  have hBuild : s.BuildBVH objects =
      { bvhNodes := (buildBVHRecursive
          ((List.range objects.length).map (leafNodeOf objects))
          (List.range objects.length)).1,
        rootNode := ((buildBVHRecursive
          ((List.range objects.length).map (leafNodeOf objects))
          (List.range objects.length)).2 : ℤ) } := by
    unfold CPUBVHSystem.BuildBVH
    rw [if_neg hne]
  rw [hBuild]
  have hroot : (buildBVHRecursive
      ((List.range objects.length).map (leafNodeOf objects))
      (List.range objects.length)).2 =
      (if objects.length = 1 then 0 else objects.length) := by
    rw [C, hleavlen]
    simp only [List.length_range]
    by_cases h1 : objects.length = 1
    · rw [if_pos h1, if_pos h1, h1]
      rfl
    · rw [if_neg h1, if_neg h1]
  refine ⟨?_, ?_, ?_, ?_⟩
  · show (buildBVHRecursive _ _).1.length = _
    rw [A, hleavlen]
    simp only [List.length_range]
    omega
  · intro j hj
    show lookup0 (buildBVHRecursive _ _).1 j = _
    rw [B j (by rw [hleavlen]; exact hj), lookup0_map_range _ hj]
  · show ((buildBVHRecursive _ _).2 : ℤ) = _
    rw [hroot]
  · refine ⟨os, ns, by simpa using hperm, ?_, ?_, ?_⟩
    · show IsSubtree _ objects (((buildBVHRecursive _ _).2 : ℤ)).toNat os ns
      rw [Int.toNat_natCast]
      exact hsub
    · obtain ⟨hnsl, hosne⟩ := hsub.ns_length
      rw [hnsl, hperm.length_eq]
      simp
    · intro j2 h1 h2
      exact hcover j2 (by rw [hleavlen]; exact h1) h2

/-- In a freshly built CPU hierarchy, slot `j` is a leaf iff `j` is an
object index. -/
theorem cpu_build_leaf_iff (s : CPUBVHSystem) (objects : List RenderObject)
    (hne : objects ≠ []) :
    ∀ j, j < (s.BuildBVH objects).bvhNodes.length →
      ((lookup0 (s.BuildBVH objects).bvhNodes j).isLeaf = true ↔ j < objects.length) := by
  obtain ⟨hlen, hleaves, hroot, os, ns, hperm, hsub, hnslen, hcover⟩ :=
    s.buildBVH_spec objects hne
  intro j hj
  constructor
  · intro hl
    by_contra hc
    push_neg at hc
    have hmem := hcover j hc hj
    obtain ⟨os', ns', hsub'⟩ := hsub.sub_derivation j hmem
    cases hsub' with
    | leaf o ho holen hnode =>
      exact absurd ho (by omega)
    | internal _ l r os1 ns1 os2 ns2 hj2 hleaf _ _ _ _ _ _ =>
      rw [hleaf] at hl
      cases hl
  · intro hjN
    rw [hleaves j hjN]
    rfl

/-- In a freshly built CPU hierarchy, every internal slot's box is the
union of its children's boxes (and the children are in range). -/
theorem cpu_build_internal_union (s : CPUBVHSystem) (objects : List RenderObject)
    (hne : objects ≠ []) :
    ∀ j, j < (s.BuildBVH objects).bvhNodes.length →
      (lookup0 (s.BuildBVH objects).bvhNodes j).isLeaf = false →
      ∃ l r : ℕ, l < (s.BuildBVH objects).bvhNodes.length ∧
        r < (s.BuildBVH objects).bvhNodes.length ∧
        (lookup0 (s.BuildBVH objects).bvhNodes j).leftChild = (l : ℤ) ∧
        (lookup0 (s.BuildBVH objects).bvhNodes j).rightChild = (r : ℤ) ∧
        (lookup0 (s.BuildBVH objects).bvhNodes j).minBounds =
          Vector3.vmin (lookup0 (s.BuildBVH objects).bvhNodes l).minBounds
            (lookup0 (s.BuildBVH objects).bvhNodes r).minBounds ∧
        (lookup0 (s.BuildBVH objects).bvhNodes j).maxBounds =
          Vector3.vmax (lookup0 (s.BuildBVH objects).bvhNodes l).maxBounds
            (lookup0 (s.BuildBVH objects).bvhNodes r).maxBounds := by
  obtain ⟨hlen, hleaves, hroot, os, ns, hperm, hsub, hnslen, hcover⟩ :=
    s.buildBVH_spec objects hne
  intro j hj hl
  have hjN : ¬ j < objects.length := by
    intro hc
    rw [(cpu_build_leaf_iff s objects hne j hj).mpr hc] at hl
    cases hl
  have hmem := hcover j (by omega) hj
  obtain ⟨os', ns', hsub'⟩ := hsub.sub_derivation j hmem
  cases hsub' with
  | leaf o ho holen hnode =>
    rw [hnode] at hl
    cases hl
  | internal _ l r os1 ns1 os2 ns2 hj2 hleaf hlc hrc h1 h2 hmin hmax =>
    exact ⟨l, r, h1.root_lt, h2.root_lt, hlc, hrc, hmin, hmax⟩

theorem gpuConstructBVH_length (codes : List (ℕ × ℤ)) (objects : List RenderObject)
    (N : ℕ) : (gpuConstructBVH codes objects N).length = 2 * N - 1 := by
  simp [gpuConstructBVH]

theorem gpuConstructNode_leaf (codes : List (ℕ × ℤ)) (objects : List RenderObject)
    (N j : ℕ) (h : N - 1 ≤ j) :
    gpuConstructNode codes objects N j = gpuLeafOf objects (lookup0 codes (j - (N - 1))) := by
  unfold gpuConstructNode gpuLeafOf
  rw [if_pos h]

theorem gpuConstructNode_internal_isLeaf (codes : List (ℕ × ℤ))
    (objects : List RenderObject) (N j : ℕ) (h : ¬ N - 1 ≤ j) :
    (gpuConstructNode codes objects N j).isLeaf = false := by
  unfold gpuConstructNode
  rw [if_neg h]

/-- The leaf half of the construction buffer, in order: one leaf per
sorted Morton record. -/
theorem gpuConstructBVH_drop (codes : List (ℕ × ℤ)) (objects : List RenderObject)
    {N : ℕ} (hcl : codes.length = N) (hN : 1 ≤ N) :
    (gpuConstructBVH codes objects N).drop (N - 1) = codes.map (gpuLeafOf objects) := by
  apply List.ext_getElem
  · rw [List.length_drop, gpuConstructBVH_length, List.length_map, hcl]
    omega
  · intro k h1 h2
    rw [List.getElem_drop]
    unfold gpuConstructBVH
    have hk : k < N := by
      rw [List.length_drop, gpuConstructBVH_length] at h1
      omega
    rw [List.getElem_map, List.getElem_range, List.getElem_map]
    rw [gpuConstructNode_leaf codes objects N _ (by omega)]
    congr 1
    have : N - 1 + k - (N - 1) = k := by omega
    rw [this, lookup0_of_getElem (by omega)]

theorem gpuConstructBVH_take_internal (codes : List (ℕ × ℤ))
    (objects : List RenderObject) (N : ℕ) :
    ∀ a ∈ (gpuConstructBVH codes objects N).take (N - 1), a.isLeaf = false := by
  intro a ha
  obtain ⟨k, hk, hak⟩ := List.mem_iff_getElem.mp ha
  rw [List.getElem_take] at hak
  have hk2 : k < N - 1 := by
    rw [List.length_take] at hk
    omega
  unfold gpuConstructBVH at hak
  rw [List.getElem_map, List.getElem_range] at hak
  rw [← hak]
  exact gpuConstructNode_internal_isLeaf codes objects N k (by omega)

/-- C1: building the hierarchy from a non-empty list of `N` objects —
`CPUBVHSystem::BuildBVH` and the GPU construction kernel over the sorted
key records — produces exactly `N-1` internal nodes and `N` leaves, and
every object index in `[0,N)` is the `objectIndex` of exactly one leaf
(for the kernel, granted that the sorted records carry each object index
exactly once); for `N = 1` the hierarchy is a single leaf, the root is
that leaf and there are no internal nodes; for `N = 0` both builds are
no-ops (the CPU build returns with the state unchanged — in particular
the fresh state stays invalid — and the GPU build fails). -/
theorem C1_build_counts :
    (∀ s : CPUBVHSystem, s.BuildBVH [] = s) ∧
    (({} : CPUBVHSystem).IsValid = false) ∧
    (∀ s : GPUBVHSystem, s.BuildBVH [] = none) ∧
    (∀ (s : CPUBVHSystem) (objects : List RenderObject), objects ≠ [] →
      (s.BuildBVH objects).bvhNodes.countP (fun n => n.isLeaf) = objects.length ∧
      (s.BuildBVH objects).bvhNodes.countP (fun n => !n.isLeaf) = objects.length - 1 ∧
      ((s.BuildBVH objects).bvhNodes.filter (fun n => n.isLeaf)).map
        (fun n => n.objectIndex) = (List.range objects.length).map (fun i => Int.ofNat i) ∧
      (objects.length = 1 → (s.BuildBVH objects).rootNode = 0 ∧
        (s.BuildBVH objects).bvhNodes = [leafNodeOf objects 0])) ∧
    (∀ (codes : List (ℕ × ℤ)) (objects : List RenderObject), objects ≠ [] →
      codes.length = objects.length →
      (gpuConstructBVH codes objects objects.length).countP (fun n => n.isLeaf)
        = objects.length ∧
      (gpuConstructBVH codes objects objects.length).countP (fun n => !n.isLeaf)
        = objects.length - 1 ∧
      ((gpuConstructBVH codes objects objects.length).filter (fun n => n.isLeaf)).map
        (fun n => n.objectIndex) = codes.map Prod.snd ∧
      ((codes.map Prod.snd).Perm ((List.range objects.length).map (fun i => Int.ofNat i)) →
        (((gpuConstructBVH codes objects objects.length).filter (fun n => n.isLeaf)).map
          (fun n => n.objectIndex)).Perm
          ((List.range objects.length).map (fun i => Int.ofNat i))) ∧
      (objects.length = 1 →
        (gpuConstructBVH codes objects objects.length).length = 1 ∧
        (lookup0 (gpuConstructBVH codes objects objects.length) 0).isLeaf = true ∧
        (lookup0 (gpuConstructBVH codes objects objects.length) 0).objectIndex =
          (lookup0 codes 0).2)) := by
  refine ⟨fun s => rfl, rfl, fun s => by simp [GPUBVHSystem.BuildBVH], ?_, ?_⟩
  · -- CPU counts
    intro s objects hne
    have hN : 1 ≤ objects.length := List.length_pos.mpr hne
    obtain ⟨hlen, hleaves, hroot, os, ns, hperm, hsub, hnslen, hcover⟩ :=
      s.buildBVH_spec objects hne
    have hleafiff := cpu_build_leaf_iff s objects hne
    have htake : (s.BuildBVH objects).bvhNodes.take objects.length
        = (List.range objects.length).map (leafNodeOf objects) :=
      take_eq_map_range _ (by omega) hleaves
    have htakeleaf : ∀ a ∈ (s.BuildBVH objects).bvhNodes.take objects.length,
        a.isLeaf = true := by
      intro a ha
      rw [htake] at ha
      obtain ⟨i, hi, rfl⟩ := List.mem_map.mp ha
      rfl
    have hdropleaf : ∀ a ∈ (s.BuildBVH objects).bvhNodes.drop objects.length,
        a.isLeaf = false := by
      intro a ha
      obtain ⟨k, hk, hak⟩ := List.mem_iff_getElem.mp ha
      rw [List.getElem_drop] at hak
      have hk2 : objects.length + k < (s.BuildBVH objects).bvhNodes.length := by
        rw [List.length_drop] at hk
        omega
      have : lookup0 (s.BuildBVH objects).bvhNodes (objects.length + k) = a := by
        rw [lookup0_of_getElem hk2, hak]
      rw [← this]
      have := (hleafiff (objects.length + k) hk2)
      rcases hb : (lookup0 (s.BuildBVH objects).bvhNodes (objects.length + k)).isLeaf with _ | _
      · rfl
      · rw [hb] at this
        have := this.mp rfl
        omega
    have hsplitter : (s.BuildBVH objects).bvhNodes =
        (s.BuildBVH objects).bvhNodes.take objects.length ++
        (s.BuildBVH objects).bvhNodes.drop objects.length :=
      (List.take_append_drop _ _).symm
    refine ⟨?_, ?_, ?_, ?_⟩
    · conv_lhs => rw [hsplitter]
      rw [List.countP_append]
      rw [List.countP_eq_length.mpr (fun a ha => by simp [htakeleaf a ha]),
        List.countP_eq_zero.mpr (fun a ha => by simp [hdropleaf a ha])]
      rw [List.length_take]
      omega
    · conv_lhs => rw [hsplitter]
      rw [List.countP_append]
      rw [List.countP_eq_zero.mpr (fun a ha => by simp [htakeleaf a ha]),
        List.countP_eq_length.mpr (fun a ha => by simp [hdropleaf a ha])]
      rw [List.length_drop]
      omega
    · have hfilter : (s.BuildBVH objects).bvhNodes.filter (fun n => n.isLeaf)
          = (s.BuildBVH objects).bvhNodes.take objects.length := by
        conv_lhs => rw [hsplitter]
        rw [List.filter_append]
        rw [List.filter_eq_self.mpr (fun a ha => by simp [htakeleaf a ha]),
          List.filter_eq_nil_iff.mpr (fun a ha => by simp [hdropleaf a ha])]
        simp
      rw [hfilter, htake, List.map_map]
      exact List.map_congr_left fun i _ => rfl

    · intro h1
      constructor
      · rw [hroot, h1]
        rfl
      · apply List.ext_getElem
        · rw [hlen, h1]
          simp
        · intro j hj1 hj2
          have hj0 : j = 0 := by
            rw [hlen, h1] at hj1
            omega
          subst hj0
          rw [← lookup0_of_getElem hj1, hleaves 0 (by omega)]
          simp
  · -- GPU construction kernel counts
    intro codes objects hne hcl
    have hN : 1 ≤ objects.length := List.length_pos.mpr hne
    set N := objects.length with hNdef
    have hdrop := gpuConstructBVH_drop codes objects hcl hN
    have htakeint := gpuConstructBVH_take_internal codes objects N
    have hdropleaf : ∀ a ∈ (gpuConstructBVH codes objects N).drop (N - 1),
        a.isLeaf = true := by
      intro a ha
      rw [hdrop] at ha
      obtain ⟨c, hc, rfl⟩ := List.mem_map.mp ha
      rfl
    have hsplitter : gpuConstructBVH codes objects N =
        (gpuConstructBVH codes objects N).take (N - 1) ++
        (gpuConstructBVH codes objects N).drop (N - 1) :=
      (List.take_append_drop _ _).symm
    have htakelen : ((gpuConstructBVH codes objects N).take (N - 1)).length = N - 1 := by
      rw [List.length_take, gpuConstructBVH_length]
      omega
    have hdroplen : ((gpuConstructBVH codes objects N).drop (N - 1)).length = N := by
      rw [List.length_drop, gpuConstructBVH_length]
      omega
    have hfilter : (gpuConstructBVH codes objects N).filter (fun n => n.isLeaf)
        = (gpuConstructBVH codes objects N).drop (N - 1) := by
      conv_lhs => rw [hsplitter]
      rw [List.filter_append]
      rw [List.filter_eq_nil_iff.mpr (fun a ha => by simp [htakeint a ha]),
        List.filter_eq_self.mpr (fun a ha => by simp [hdropleaf a ha])]
      simp
    have hfiltermap : ((gpuConstructBVH codes objects N).filter
        (fun n => n.isLeaf)).map (fun n => n.objectIndex) = codes.map Prod.snd := by
      rw [hfilter, hdrop, List.map_map]
      exact List.map_congr_left fun c _ => rfl
    refine ⟨?_, ?_, hfiltermap, ?_, ?_⟩
    · conv_lhs => rw [hsplitter]
      rw [List.countP_append]
      rw [List.countP_eq_zero.mpr (fun a ha => by simp [htakeint a ha]),
        List.countP_eq_length.mpr (fun a ha => by simp [hdropleaf a ha])]
      rw [hdroplen]
      omega
    · conv_lhs => rw [hsplitter]
      rw [List.countP_append]
      rw [List.countP_eq_length.mpr (fun a ha => by simp [htakeint a ha]),
        List.countP_eq_zero.mpr (fun a ha => by simp [hdropleaf a ha])]
      rw [htakelen]
      omega
    · intro hp
      rw [hfiltermap]
      exact hp
    · intro h1
      have hlen1 : (gpuConstructBVH codes objects N).length = 1 := by
        rw [gpuConstructBVH_length, h1]
      have h0 : lookup0 (gpuConstructBVH codes objects N) 0
          = gpuConstructNode codes objects N 0 := by
        unfold gpuConstructBVH
        exact lookup0_map_range _ (by omega)
      have hleaf0 : gpuConstructNode codes objects N 0
          = gpuLeafOf objects (lookup0 codes 0) := by
        have := gpuConstructNode_leaf codes objects N 0 (by omega)
        simpa [h1] using this
      refine ⟨hlen1, ?_, ?_⟩
      · rw [h0, hleaf0]
        rfl
      · rw [h0, hleaf0]
        rfl

/-- Witness for `C1_build_counts` at two concrete objects (CPU and GPU). -/
theorem C1_build_counts_witness :
    (({} : CPUBVHSystem).BuildBVH c1Objs).bvhNodes.countP (fun n => n.isLeaf) = 2 ∧
    (({} : CPUBVHSystem).BuildBVH c1Objs).bvhNodes.countP (fun n => !n.isLeaf) = 1 ∧
    (gpuConstructBVH c1Codes c1Objs c1Objs.length).countP (fun n => !n.isLeaf) = 1 ∧
    (((gpuConstructBVH c1Codes c1Objs c1Objs.length).filter (fun n => n.isLeaf)).map
      (fun n => n.objectIndex)).Perm ((List.range c1Objs.length).map (fun i => Int.ofNat i)) := by
  obtain ⟨_, _, _, hcpu, hgpu⟩ := C1_build_counts
  obtain ⟨hc1, hc2, _, _⟩ := hcpu {} c1Objs (by decide)
  obtain ⟨_, hg2, _, hg4, _⟩ := hgpu c1Codes c1Objs (by decide) (by decide)
  exact ⟨hc1, hc2, hg2, hg4 (by decide)⟩

/-- C2 (amended): after a `CPUBVHSystem::BuildBVH` build from any
non-empty object list, every internal node reachable from the root has
bounds equal to the componentwise union of its two children's bounds;
likewise any fixed point of the refit pass satisfies the union property
at internal nodes with in-range children.  (The GPU construction kernel
does not establish the invariant — see the counterexample.) -/
theorem C2_internal_union :
    (∀ (s : CPUBVHSystem) (objects : List RenderObject), objects ≠ [] →
      ∀ k : ℤ,
        ReachableFrom (s.BuildBVH objects).bvhNodes (s.BuildBVH objects).rootNode k →
        0 ≤ k → k < ((s.BuildBVH objects).bvhNodes.length : ℤ) →
        (lookup0 (s.BuildBVH objects).bvhNodes k.toNat).isLeaf = false →
        (lookup0 (s.BuildBVH objects).bvhNodes k.toNat).minBounds =
          Vector3.vmin
            (lookup0 (s.BuildBVH objects).bvhNodes
              ((lookup0 (s.BuildBVH objects).bvhNodes k.toNat).leftChild).toNat).minBounds
            (lookup0 (s.BuildBVH objects).bvhNodes
              ((lookup0 (s.BuildBVH objects).bvhNodes k.toNat).rightChild).toNat).minBounds ∧
        (lookup0 (s.BuildBVH objects).bvhNodes k.toNat).maxBounds =
          Vector3.vmax
            (lookup0 (s.BuildBVH objects).bvhNodes
              ((lookup0 (s.BuildBVH objects).bvhNodes k.toNat).leftChild).toNat).maxBounds
            (lookup0 (s.BuildBVH objects).bvhNodes
              ((lookup0 (s.BuildBVH objects).bvhNodes k.toNat).rightChild).toNat).maxBounds) ∧
    (∀ (objects : List RenderObject) (oc nc : ℕ) (nodes : List BVHNode),
      refitPass objects oc nc nodes = nodes →
      ∀ j, j < nodes.length → j < nc →
        (lookup0 nodes j).isLeaf = false →
        0 ≤ (lookup0 nodes j).leftChild → 0 ≤ (lookup0 nodes j).rightChild →
        (lookup0 nodes j).leftChild < (nc : ℤ) → (lookup0 nodes j).rightChild < (nc : ℤ) →
        (lookup0 nodes j).minBounds =
          Vector3.vmin (lookup0 nodes ((lookup0 nodes j).leftChild).toNat).minBounds
            (lookup0 nodes ((lookup0 nodes j).rightChild).toNat).minBounds ∧
        (lookup0 nodes j).maxBounds =
          Vector3.vmax (lookup0 nodes ((lookup0 nodes j).leftChild).toNat).maxBounds
            (lookup0 nodes ((lookup0 nodes j).rightChild).toNat).maxBounds) := by
  constructor
  · intro s objects hne k _hreach h0 hlt hleaf
    obtain ⟨l, r, hl, hr, hlc, hrc, hmin, hmax⟩ :=
      cpu_build_internal_union s objects hne k.toNat
        (by omega) hleaf
    rw [hlc, hrc, Int.toNat_natCast, Int.toNat_natCast]
    exact ⟨hmin, hmax⟩
  · intro objects oc nc nodes hfix j hj hjnc hleaf hl0 hr0 hlnc hrnc
    have heq : lookup0 nodes j = lookup0 (refitPass objects oc nc nodes) j := by
      rw [hfix]
    have hmap : lookup0 (refitPass objects oc nc nodes) j =
        refitBody objects oc nc nodes j := by
      unfold refitPass
      exact lookup0_map_range _ hj
    rw [hmap] at heq
    unfold refitBody at heq
    simp only [hjnc, not_true, if_false, not_lt, hleaf, Bool.false_eq_true] at heq
    rw [if_pos ⟨hl0, hr0, hlnc, hrnc⟩] at heq
    constructor
    · have := congrArg BVHNode.minBounds heq
      exact this
    · have := congrArg BVHNode.maxBounds heq
      exact this

/-- Counterexample to C2 as stated: the GPU construction kernel, run on
three records with equal Morton keys, yields an internal node (index 1,
reachable from the root) whose box is not the union of its children's
boxes. -/
theorem C2_counterexample :
    ReachableFrom c2Nodes 0 1 ∧
    (lookup0 c2Nodes 1).isLeaf = false ∧
    ¬ ((lookup0 c2Nodes 1).minBounds =
        Vector3.vmin (lookup0 c2Nodes ((lookup0 c2Nodes 1).leftChild).toNat).minBounds
          (lookup0 c2Nodes ((lookup0 c2Nodes 1).rightChild).toNat).minBounds) := by
  refine ⟨?_, by decide, by decide⟩
  have hl : (lookup0 c2Nodes ((0 : ℤ)).toNat).leftChild = 1 := by decide
  have h := @ReachableFrom.left c2Nodes 0 0
    ReachableFrom.refl (by decide) (by decide) (by decide)
  rwa [hl] at h

/-- Witness for `C2_internal_union`: the root of a concrete two-object
CPU build, and the internal node of a concrete refit fixed point. -/
theorem C2_internal_union_witness :
    ((lookup0 (({} : CPUBVHSystem).BuildBVH c1Objs).bvhNodes
        ((({} : CPUBVHSystem).BuildBVH c1Objs).rootNode).toNat).minBounds =
      Vector3.vmin
        (lookup0 (({} : CPUBVHSystem).BuildBVH c1Objs).bvhNodes
          ((lookup0 (({} : CPUBVHSystem).BuildBVH c1Objs).bvhNodes
            ((({} : CPUBVHSystem).BuildBVH c1Objs).rootNode).toNat).leftChild).toNat).minBounds
        (lookup0 (({} : CPUBVHSystem).BuildBVH c1Objs).bvhNodes
          ((lookup0 (({} : CPUBVHSystem).BuildBVH c1Objs).bvhNodes
            ((({} : CPUBVHSystem).BuildBVH c1Objs).rootNode).toNat).rightChild).toNat).minBounds) ∧
    ((lookup0 c2FixNodes 2).minBounds =
      Vector3.vmin (lookup0 c2FixNodes ((lookup0 c2FixNodes 2).leftChild).toNat).minBounds
        (lookup0 c2FixNodes ((lookup0 c2FixNodes 2).rightChild).toNat).minBounds) := by
  have hne : c1Objs ≠ [] := by decide
  obtain ⟨hlen, hleaves, hroot, _⟩ := CPUBVHSystem.buildBVH_spec {} c1Objs hne
  have hlen2 : c1Objs.length = 2 := rfl
  have hrootval : (({} : CPUBVHSystem).BuildBVH c1Objs).rootNode = (2 : ℤ) := by
    rw [hroot, hlen2]
    norm_num
  have hlen3 : (({} : CPUBVHSystem).BuildBVH c1Objs).bvhNodes.length = 3 := by
    rw [hlen, hlen2]
  have hleaf : (lookup0 (({} : CPUBVHSystem).BuildBVH c1Objs).bvhNodes
      (((({} : CPUBVHSystem).BuildBVH c1Objs).rootNode)).toNat).isLeaf = false := by
    have htn : ((2 : ℤ)).toNat = 2 := rfl
    rw [hrootval, htn]
    have hiff := cpu_build_leaf_iff {} c1Objs hne 2 (by omega)
    cases hb : (lookup0 (({} : CPUBVHSystem).BuildBVH c1Objs).bvhNodes 2).isLeaf with
    | false => rfl
    | true =>
      rw [hb] at hiff
      have := hiff.mp rfl
      rw [hlen2] at this
      omega
  constructor
  · exact (C2_internal_union.1 {} c1Objs hne
      (({} : CPUBVHSystem).BuildBVH c1Objs).rootNode ReachableFrom.refl
      (by rw [hrootval]; omega)
      (by rw [hrootval, hlen3]; omega) hleaf).1
  · exact (C2_internal_union.2 c2FixObjects 2 3 c2FixNodes (by decide) 2
      (by decide) (by decide) (by decide) (by decide) (by decide)
      (by decide) (by decide)).1

theorem lookup0_map {α β : Type} [Inhabited α] [Inhabited β] (f : α → β)
    {l : List α} {i : ℕ} (h : i < l.length) :
    lookup0 (l.map f) i = f (lookup0 l i) := by
  rw [lookup0_of_getElem (by simpa using h), lookup0_of_getElem h, List.getElem_map]

/-- C3: on the hierarchy built by `CPUBVHSystem::BuildBVH` from any
non-empty object list (which satisfies the child-union invariant), the
hierarchy-traversal culling pass `PerformFrustumCulling` marks exactly
the objects the direct per-object strategy marks: object `i` ends visible
iff its own box passes the frustum test.  (The CPU pass applies no
occlusion suppression, so this covers every object.) -/
theorem C3_culling_equivalence (s : CPUBVHSystem) (objects : List RenderObject)
    (frustum : Frustum) (hne : objects ≠ []) :
    ∀ i, i < objects.length →
      (lookup0 ((s.BuildBVH objects).PerformFrustumCulling frustum objects) i).visible =
        directVisible frustum objects i := by
  intro i hi
  have hN : 1 ≤ objects.length := List.length_pos.mpr hne
  obtain ⟨hlen, hleaves, hroot, os, ns, hperm, hsub, hnslen, hcover⟩ :=
    s.buildBVH_spec objects hne
  set s' := s.BuildBVH objects with hs'
  -- the hierarchy is valid
  have hvalid : s'.IsValid = true := by
    unfold CPUBVHSystem.IsValid
    rw [hroot]
    have h1 : (0 : ℤ) ≤ ((if objects.length = 1 then 0 else objects.length : ℕ) : ℤ) :=
      Int.natCast_nonneg _
    have h2 : s'.bvhNodes.isEmpty = false := by
      cases hnodes : s'.bvhNodes with
      | nil =>
        rw [hnodes] at hlen
        simp at hlen
        omega
      | cons a t => rfl
    simp only [h2, Bool.not_false, Bool.and_true]
    exact decide_eq_true h1
  set reset := objects.map (fun o => { o with visible := false }) with hreset
  have hresetlen : reset.length = objects.length := by
    rw [hreset, List.length_map]
  have hrootnat : s'.rootNode =
      (((if objects.length = 1 then 0 else objects.length) : ℕ) : ℤ) := hroot
  obtain ⟨hculllen, hcullfun⟩ := frustumCullBVH_spec frustum hsub
    (s'.bvhNodes.length + 1) (by omega) reset (by rw [hresetlen])
  have hres : s'.PerformFrustumCulling frustum objects =
      CPUBVHSystem.FrustumCullBVH s'.bvhNodes frustum (s'.bvhNodes.length + 1)
        ((s'.rootNode.toNat : ℕ) : ℤ) reset := by
    unfold CPUBVHSystem.PerformFrustumCulling
    rw [if_pos hvalid]
    congr 1
    rw [hrootnat, Int.toNat_natCast]
  rw [hres, hcullfun i (by rw [hresetlen]; exact hi)]
  have hresetl : lookup0 reset i = { lookup0 objects i with visible := false } := by
    rw [hreset, lookup0_map _ hi]
  rw [hresetl]
  have hmem : decide (i ∈ os) = true := by
    simp only [decide_eq_true_eq]
    exact hperm.mem_iff.mpr (List.mem_range.mpr hi)
  simp only [hmem]
  rfl

/-- Witness for `C3_culling_equivalence` at a concrete build and
frustum. -/
theorem C3_culling_equivalence_witness :
    (lookup0 ((({} : CPUBVHSystem).BuildBVH c1Objs).PerformFrustumCulling
        ⟨fun _ => ⟨0, 0, 0, 1⟩⟩ c1Objs) 0).visible =
      directVisible ⟨fun _ => ⟨0, 0, 0, 1⟩⟩ c1Objs 0 :=
  C3_culling_equivalence {} c1Objs ⟨fun _ => ⟨0, 0, 0, 1⟩⟩ (by decide) 0 (by decide)

/-- C4: for every box and 6 planes, the frustum classifier returns
outside (`false`) iff some plane's signed distance to the box's positive
vertex is negative; consequently (for a box with `min ≤ max`) if every
one of the 8 corners has negative distance to some one plane the box is
classified outside, and if no plane rejects the positive vertex the box
is classified inside-or-intersecting (`true`). -/
theorem C4_frustum_classifier (f : Frustum) (minB maxB : Vector3) :
    (Frustum.IsBoxInFrustum f minB maxB = false ↔
      ∃ i : Fin 6, Frustum.planeDistance (f.planes i)
        (Frustum.positiveVertex (f.planes i) minB maxB) < 0) ∧
    (Vector3.le minB maxB → ∀ k : Fin 6,
      (∀ c ∈ Frustum.corners minB maxB, Frustum.planeDistance (f.planes k) c < 0) →
      Frustum.IsBoxInFrustum f minB maxB = false) ∧
    ((∀ i : Fin 6, 0 ≤ Frustum.planeDistance (f.planes i)
        (Frustum.positiveVertex (f.planes i) minB maxB)) →
      Frustum.IsBoxInFrustum f minB maxB = true) := by
  refine ⟨Frustum.isBoxInFrustum_eq_false_iff f minB maxB, ?_, ?_⟩
  · intro _ k hc
    rw [Frustum.isBoxInFrustum_eq_false_iff]
    exact ⟨k, hc _ (Frustum.positiveVertex_mem_corners _ _ _)⟩
  · exact (Frustum.isBoxInFrustum_eq_true_iff f minB maxB).mpr

/-- Witness for `C4_frustum_classifier`: the unit box against a frustum
plane that rejects all its corners, and against an all-accepting
frustum. -/
theorem C4_frustum_classifier_witness :
    Frustum.IsBoxInFrustum rejectFrustum unitBoxMin unitBoxMax = false ∧
    Frustum.IsBoxInFrustum acceptFrustum unitBoxMin unitBoxMax = true := by
  constructor
  · refine (C4_frustum_classifier rejectFrustum unitBoxMin unitBoxMax).2.1
      (by refine ⟨?_, ?_, ?_⟩ <;> norm_num [unitBoxMin, unitBoxMax]) 0 ?_
    intro c hc
    simp only [Frustum.corners, unitBoxMin, unitBoxMax, List.mem_cons,
      List.mem_singleton, List.not_mem_nil, or_false] at hc
    rcases hc with rfl | rfl | rfl | rfl | rfl | rfl | rfl | rfl <;>
      norm_num [Frustum.planeDistance, rejectFrustum]
  · refine (C4_frustum_classifier acceptFrustum unitBoxMin unitBoxMax).2.2 ?_
    intro i
    norm_num [Frustum.planeDistance, Frustum.positiveVertex, acceptFrustum]

/-- C7 (amended): in the GPU per-object culling kernel, every object
whose `occludedFrameCount` exceeds the suppression threshold `2` is
skipped — its visibility-buffer entry after the pass equals its value
before the pass, regardless of the frustum result.  (The CPU fallback
pass does not respect suppression — see the counterexample.) -/
theorem C7_occlusion_suppression (nodes : List BVHNode) (frustum : Frustum)
    (root : ℤ) (nodeCount objectCount : ℕ) (objects : List RenderObject)
    (vis : List ℤ) (fuel : ℕ) :
    ∀ i, i < vis.length →
      2 < (lookup0 objects i).occludedFrameCount →
      lookup0 (gpuFrustumCullingKernel nodes frustum root nodeCount objectCount
        objects vis fuel) i = lookup0 vis i := by
  intro i hi hoc
  unfold gpuFrustumCullingKernel
  rw [lookup0_map_range _ hi]
  by_cases hio : i < objectCount
  · rw [if_pos hio]
    unfold gpuCullObject
    rw [if_neg (by omega)]
  · rw [if_neg hio]

/-- Witness for `C7_occlusion_suppression`: a concrete heavily occluded
object keeps its visibility entry `7`. -/
theorem C7_occlusion_suppression_witness :
    lookup0 (gpuFrustumCullingKernel c7State.bvhNodes acceptFrustum 0 1 1
      c7Objects [7] 5) 0 = 7 := by
  have h := C7_occlusion_suppression c7State.bvhNodes acceptFrustum 0 1 1
    c7Objects [7] 5 0 (by decide) (by decide)
  rw [h]
  rfl

/-- Counterexample to C7 as stated: the CPU strategy resets and
recomputes every object's visibility, ignoring `occludedFrameCount` — a
heavily occluded object (counter `3 > 2`) that was visible before the
pass ends not-visible because its box fails the frustum test. -/
theorem C7_counterexample :
    2 < (lookup0 c7Objects 0).occludedFrameCount ∧
    (lookup0 c7Objects 0).visible = true ∧
    (lookup0 (c7State.PerformFrustumCulling rejectFrustum c7Objects) 0).visible
      = false := by
  refine ⟨by decide, by decide, ?_⟩
  have hlook : lookup0 c7State.bvhNodes c7State.rootNode.toNat = leafNodeOf c7Objects 0 := by
    decide
  have hbox : Frustum.IsBoxInFrustum rejectFrustum
      (leafNodeOf c7Objects 0).minBounds (leafNodeOf c7Objects 0).maxBounds = false := by
    rw [Frustum.isBoxInFrustum_eq_false_iff]
    refine ⟨0, ?_⟩
    norm_num [Frustum.planeDistance, Frustum.positiveVertex, rejectFrustum,
      leafNodeOf, c7Objects, lookup0]
  have hres : c7State.PerformFrustumCulling rejectFrustum c7Objects =
      c7Objects.map (fun o => { o with visible := false }) := by
    unfold CPUBVHSystem.PerformFrustumCulling
    rw [if_pos (by decide)]
    simp only [CPUBVHSystem.FrustumCullBVH]
    rw [if_neg (by decide), hlook]
    rw [if_pos (by rw [hbox]; exact fun hc => by cases hc)]
  rw [hres]
  decide

theorem bvhNode_ext {a b : BVHNode} (hmin : a.minBounds = b.minBounds)
    (hmax : a.maxBounds = b.maxBounds) (hl : a.leftChild = b.leftChild)
    (hr : a.rightChild = b.rightChild) (ho : a.objectIndex = b.objectIndex)
    (hi : a.isLeaf = b.isLeaf) : a = b := by
  cases a
  cases b
  congr

theorem lookup0_length_le {α : Type} [Inhabited α] {l : List α} {i : ℕ}
    (h : l.length ≤ i) : lookup0 l i = default := by
  unfold lookup0
  rw [List.getElem?_eq_none h]
  rfl

theorem refitPass_length (objects : List RenderObject) (oc nc : ℕ)
    (nodes : List BVHNode) : (refitPass objects oc nc nodes).length = nodes.length := by
  simp [refitPass]

theorem lookup0_refitPass (objects : List RenderObject) (oc nc : ℕ)
    {nodes : List BVHNode} {j : ℕ} (h : j < nodes.length) :
    lookup0 (refitPass objects oc nc nodes) j = refitBody objects oc nc nodes j := by
  unfold refitPass
  exact lookup0_map_range _ h

/-- The refit body never touches the structural fields of a slot. -/
theorem refitBody_fields (objects : List RenderObject) (oc nc : ℕ)
    (nodes : List BVHNode) (j : ℕ) :
    (refitBody objects oc nc nodes j).isLeaf = (lookup0 nodes j).isLeaf ∧
    (refitBody objects oc nc nodes j).leftChild = (lookup0 nodes j).leftChild ∧
    (refitBody objects oc nc nodes j).rightChild = (lookup0 nodes j).rightChild ∧
    (refitBody objects oc nc nodes j).objectIndex = (lookup0 nodes j).objectIndex := by
  simp only [refitBody]
  split_ifs <;> exact ⟨rfl, rfl, rfl, rfl⟩

theorem refit_iter_length (objects : List RenderObject) (oc nc : ℕ)
    (nodes : List BVHNode) (k : ℕ) :
    ((refitPass objects oc nc)^[k] nodes).length = nodes.length := by
  induction k with
  | zero => rfl
  | succ k ih =>
    rw [Function.iterate_succ_apply', refitPass_length]
    exact ih

/-- Structural fields are invariant over any number of refit passes. -/
theorem refit_iter_fields (objects : List RenderObject) (oc nc : ℕ)
    (nodes : List BVHNode) (k j : ℕ) :
    (lookup0 ((refitPass objects oc nc)^[k] nodes) j).isLeaf
      = (lookup0 nodes j).isLeaf ∧
    (lookup0 ((refitPass objects oc nc)^[k] nodes) j).leftChild
      = (lookup0 nodes j).leftChild ∧
    (lookup0 ((refitPass objects oc nc)^[k] nodes) j).rightChild
      = (lookup0 nodes j).rightChild ∧
    (lookup0 ((refitPass objects oc nc)^[k] nodes) j).objectIndex
      = (lookup0 nodes j).objectIndex := by
  induction k with
  | zero => exact ⟨rfl, rfl, rfl, rfl⟩
  | succ k ih =>
    rw [Function.iterate_succ_apply']
    by_cases hj : j < ((refitPass objects oc nc)^[k] nodes).length
    · rw [lookup0_refitPass objects oc nc hj]
      obtain ⟨h1, h2, h3, h4⟩ := refitBody_fields objects oc nc _ j
      exact ⟨h1.trans ih.1, h2.trans ih.2.1, h3.trans ih.2.2.1, h4.trans ih.2.2.2⟩
    · rw [lookup0_length_le (le_of_not_lt (by
        rw [refitPass_length]
        exact fun hc => hj hc))]
      rw [lookup0_length_le (le_of_not_lt (fun hc => hj hc))] at ih
      exact ih

theorem refitBody_out (objects : List RenderObject) (oc nc : ℕ)
    (nodes : List BVHNode) {j : ℕ} (h : ¬ j < nc) :
    refitBody objects oc nc nodes j = lookup0 nodes j := by
  unfold refitBody
  rw [if_pos (by exact h)]

theorem refitBody_leaf_valid (objects : List RenderObject) (oc nc : ℕ)
    (nodes : List BVHNode) {j : ℕ} (h : j < nc)
    (hL : (lookup0 nodes j).isLeaf = true)
    (h1 : 0 ≤ (lookup0 nodes j).objectIndex)
    (h2 : (lookup0 nodes j).objectIndex < (oc : ℤ)) :
    refitBody objects oc nc nodes j =
      { lookup0 nodes j with
        minBounds := (lookup0 objects ((lookup0 nodes j).objectIndex).toNat).minBounds
        maxBounds := (lookup0 objects ((lookup0 nodes j).objectIndex).toNat).maxBounds } := by
  unfold refitBody
  rw [if_neg (not_not_intro h), if_pos hL, if_pos ⟨h1, h2⟩]

theorem refitBody_leaf_invalid (objects : List RenderObject) (oc nc : ℕ)
    (nodes : List BVHNode) {j : ℕ} (h : j < nc)
    (hL : (lookup0 nodes j).isLeaf = true)
    (hinv : ¬ (0 ≤ (lookup0 nodes j).objectIndex ∧
      (lookup0 nodes j).objectIndex < (oc : ℤ))) :
    refitBody objects oc nc nodes j = lookup0 nodes j := by
  unfold refitBody
  rw [if_neg (not_not_intro h), if_pos hL, if_neg hinv]

theorem refitBody_internal_valid (objects : List RenderObject) (oc nc : ℕ)
    (nodes : List BVHNode) {j : ℕ} (h : j < nc)
    (hL : (lookup0 nodes j).isLeaf = false)
    (hv : 0 ≤ (lookup0 nodes j).leftChild ∧ 0 ≤ (lookup0 nodes j).rightChild ∧
      (lookup0 nodes j).leftChild < (nc : ℤ) ∧ (lookup0 nodes j).rightChild < (nc : ℤ)) :
    refitBody objects oc nc nodes j =
      { lookup0 nodes j with
        minBounds := Vector3.vmin
          (lookup0 nodes ((lookup0 nodes j).leftChild).toNat).minBounds
          (lookup0 nodes ((lookup0 nodes j).rightChild).toNat).minBounds
        maxBounds := Vector3.vmax
          (lookup0 nodes ((lookup0 nodes j).leftChild).toNat).maxBounds
          (lookup0 nodes ((lookup0 nodes j).rightChild).toNat).maxBounds } := by
  unfold refitBody
  rw [if_neg (not_not_intro h), if_neg (by rw [hL]; exact fun hc => by cases hc),
    if_pos hv]

theorem refitBody_internal_invalid (objects : List RenderObject) (oc nc : ℕ)
    (nodes : List BVHNode) {j : ℕ} (h : j < nc)
    (hL : (lookup0 nodes j).isLeaf = false)
    (hinv : ¬ (0 ≤ (lookup0 nodes j).leftChild ∧ 0 ≤ (lookup0 nodes j).rightChild ∧
      (lookup0 nodes j).leftChild < (nc : ℤ) ∧ (lookup0 nodes j).rightChild < (nc : ℤ))) :
    refitBody objects oc nc nodes j = lookup0 nodes j := by
  unfold refitBody
  rw [if_neg (not_not_intro h), if_neg (by rw [hL]; exact fun hc => by cases hc),
    if_neg hinv]

/-- Jacobi-style refit passes stabilize slot `j` after `rank j` passes,
where `rank` is any function that strictly dominates the tree's
child-to-parent ordering. -/
theorem refit_stabilizes (objects : List RenderObject) (oc nc : ℕ)
    (nodes : List BVHNode) (rank : ℕ → ℕ)
    (hrank : ∀ j, j < nodes.length → j < nc →
      ((lookup0 nodes j).isLeaf = true → 1 ≤ rank j) ∧
      ((lookup0 nodes j).isLeaf = false →
        0 ≤ (lookup0 nodes j).leftChild → 0 ≤ (lookup0 nodes j).rightChild →
        (lookup0 nodes j).leftChild < (nc : ℤ) →
        (lookup0 nodes j).rightChild < (nc : ℤ) →
        rank ((lookup0 nodes j).leftChild).toNat < rank j ∧
        rank ((lookup0 nodes j).rightChild).toNat < rank j)) :
    ∀ r j k, rank j = r → rank j ≤ k →
      lookup0 ((refitPass objects oc nc)^[k + 1] nodes) j =
        lookup0 ((refitPass objects oc nc)^[k] nodes) j := by
  intro r
  induction r using Nat.strong_induction_on with
  | _ r ih =>
  intro j k hr hk
  by_cases hjlen : j < nodes.length
  swap
  · rw [lookup0_length_le (by rw [refit_iter_length]; omega),
      lookup0_length_le (by rw [refit_iter_length]; omega)]
  have hylen : j < ((refitPass objects oc nc)^[k] nodes).length := by
    rw [refit_iter_length]
    exact hjlen
  rw [Function.iterate_succ_apply', lookup0_refitPass objects oc nc hylen]
  by_cases hjnc : j < nc
  swap
  · exact refitBody_out objects oc nc _ hjnc
  obtain ⟨hf1, hf2, hf3, hf4⟩ := refit_iter_fields objects oc nc nodes k j
  cases hL : (lookup0 nodes j).isLeaf with
  | true =>
    by_cases hval : 0 ≤ (lookup0 nodes j).objectIndex ∧
        (lookup0 nodes j).objectIndex < (oc : ℤ)
    · -- valid leaf: from pass 1 on, the slot holds the object's box
      have hk1 : 1 ≤ k := le_trans ((hrank j hjlen hjnc).1 hL) hk
      obtain ⟨k1, rfl⟩ : ∃ k1, k = k1 + 1 := ⟨k - 1, by omega⟩
      have hy1len : j < ((refitPass objects oc nc)^[k1] nodes).length := by
        rw [refit_iter_length]
        exact hjlen
      obtain ⟨hg1, hg2, hg3, hg4⟩ := refit_iter_fields objects oc nc nodes k1 j
      rw [refitBody_leaf_valid objects oc nc _ hjnc (hf1.trans hL)
        (hf4 ▸ hval.1) (hf4 ▸ hval.2)]
      conv_rhs => rw [Function.iterate_succ_apply',
        lookup0_refitPass objects oc nc hy1len]
      rw [refitBody_leaf_valid objects oc nc _ hjnc (hg1.trans hL)
        (hg4 ▸ hval.1) (hg4 ▸ hval.2)]
      dsimp only
      rw [hf1, hf2, hf3, hf4, hg1, hg2, hg3, hg4]
    · rw [refitBody_leaf_invalid objects oc nc _ hjnc (hf1.trans hL)
        (by rw [hf4]; exact hval)]
  | false =>
    by_cases hval : 0 ≤ (lookup0 nodes j).leftChild ∧ 0 ≤ (lookup0 nodes j).rightChild ∧
        (lookup0 nodes j).leftChild < (nc : ℤ) ∧ (lookup0 nodes j).rightChild < (nc : ℤ)
    · obtain ⟨hv1, hv2, hv3, hv4⟩ := hval
      have hcrank := (hrank j hjlen hjnc).2 hL hv1 hv2 hv3 hv4
      have hk1 : 1 ≤ k := by omega
      obtain ⟨k1, rfl⟩ : ∃ k1, k = k1 + 1 := ⟨k - 1, by omega⟩
      have hy1len : j < ((refitPass objects oc nc)^[k1] nodes).length := by
        rw [refit_iter_length]
        exact hjlen
      obtain ⟨hg1, hg2, hg3, hg4⟩ := refit_iter_fields objects oc nc nodes k1 j
      rw [refitBody_internal_valid objects oc nc _ hjnc (hf1.trans hL)
        ⟨hf2 ▸ hv1, hf3 ▸ hv2, hf2 ▸ hv3, hf3 ▸ hv4⟩]
      conv_rhs => rw [Function.iterate_succ_apply',
        lookup0_refitPass objects oc nc hy1len]
      rw [refitBody_internal_valid objects oc nc _ hjnc (hg1.trans hL)
        ⟨hg2 ▸ hv1, hg3 ▸ hv2, hg2 ▸ hv3, hg3 ▸ hv4⟩]
      -- the children are already stable between passes `k1` and `k1+1`
      have hstabl := ih (rank ((lookup0 nodes j).leftChild).toNat)
        (hr ▸ hcrank.1) ((lookup0 nodes j).leftChild).toNat k1 rfl (by omega)
      have hstabr := ih (rank ((lookup0 nodes j).rightChild).toNat)
        (hr ▸ hcrank.2) ((lookup0 nodes j).rightChild).toNat k1 rfl (by omega)
      dsimp only
      rw [hf1, hf2, hf3, hf4, hg1, hg2, hg3, hg4, hstabl, hstabr]
    · rw [refitBody_internal_invalid objects oc nc _ hjnc (hf1.trans hL)
        (by rw [hf2, hf3]; exact hval)]

/-- Pointwise `lookup0` agreement between two iterates of the refit pass
gives list equality. -/
theorem refit_iter_eq_of_lookup (objects : List RenderObject) (oc nc : ℕ)
    (nodes : List BVHNode) (k1 k2 : ℕ)
    (h : ∀ j, lookup0 ((refitPass objects oc nc)^[k1] nodes) j =
      lookup0 ((refitPass objects oc nc)^[k2] nodes) j) :
    (refitPass objects oc nc)^[k1] nodes = (refitPass objects oc nc)^[k2] nodes := by
  apply List.ext_getElem (by rw [refit_iter_length, refit_iter_length])
  intro j h1 h2
  have hj := h j
  rwa [lookup0_of_getElem h1, lookup0_of_getElem h2] at hj

/-- C8 (amended): for a hierarchy whose child links admit a rank function
bounded by `BVH_REFIT_ITERATIONS = 3` — i.e. whose internal depth does not
exceed the pass count — `RefitBVHBottomUp` is idempotent: a second call
with unchanged object bounds leaves the node array exactly as the first
call produced it.  The claim's unconditional form is refuted by
`C8_counterexample`: a four-deep chain needs more than three Jacobi
passes, so the second call still changes the root bounds. -/
theorem C8_refit_idempotent (objects : List RenderObject) (nodes : List BVHNode)
    (rank : ℕ → ℕ)
    (hrank : ∀ j, j < nodes.length → j < 2 * objects.length - 1 →
      ((lookup0 nodes j).isLeaf = true → 1 ≤ rank j) ∧
      ((lookup0 nodes j).isLeaf = false →
        0 ≤ (lookup0 nodes j).leftChild → 0 ≤ (lookup0 nodes j).rightChild →
        (lookup0 nodes j).leftChild < ((2 * objects.length - 1 : ℕ) : ℤ) →
        (lookup0 nodes j).rightChild < ((2 * objects.length - 1 : ℕ) : ℤ) →
        rank ((lookup0 nodes j).leftChild).toNat < rank j ∧
        rank ((lookup0 nodes j).rightChild).toNat < rank j))
    (hbound : ∀ j, rank j ≤ Config.BVH_REFIT_ITERATIONS) :
    refitBVHBottomUp objects (refitBVHBottomUp objects nodes) =
      refitBVHBottomUp objects nodes := by
  unfold refitBVHBottomUp
  rw [← Function.iterate_add_apply]
  have hstep : ∀ k, 3 ≤ k → ∀ j,
      lookup0 ((refitPass objects objects.length (2 * objects.length - 1))^[k + 1] nodes) j =
        lookup0 ((refitPass objects objects.length (2 * objects.length - 1))^[k] nodes) j := by
    intro k hk j
    exact refit_stabilizes objects objects.length (2 * objects.length - 1) nodes rank hrank
      (rank j) j k rfl (le_trans (hbound j) hk)
  show (refitPass objects objects.length (2 * objects.length - 1))^[6] nodes =
    (refitPass objects objects.length (2 * objects.length - 1))^[3] nodes
  have e1 := refit_iter_eq_of_lookup objects objects.length (2 * objects.length - 1)
    nodes 4 3 (hstep 3 (by omega))
  have e2 := refit_iter_eq_of_lookup objects objects.length (2 * objects.length - 1)
    nodes 5 4 (hstep 4 (by omega))
  have e3 := refit_iter_eq_of_lookup objects objects.length (2 * objects.length - 1)
    nodes 6 5 (hstep 5 (by omega))
  exact e3.trans (e2.trans e1)

theorem C8_refit_idempotent_witness :
    refitBVHBottomUp c2FixObjects (refitBVHBottomUp c2FixObjects c2FixNodes) =
      refitBVHBottomUp c2FixObjects c2FixNodes :=
  C8_refit_idempotent c2FixObjects c2FixNodes (fun j => if j = 2 then 2 else 1)
    (by
      intro j hj1 hj2
      have h3 : j < 3 := hj1
      interval_cases j <;> exact (by decide))
    (by
      intro j
      rcases eq_or_ne j 2 with h | h
      · subst h
        decide
      · simp only [if_neg h]
        decide)

/-- C8 counterexample: on a four-deep internal chain over five coincident
objects, the three-pass refitter has not yet converged, so a second
identical call still changes the node array. -/
theorem C8_counterexample :
    refitBVHBottomUp c8Objects (refitBVHBottomUp c8Objects c8Nodes) ≠
      refitBVHBottomUp c8Objects c8Nodes := by
  decide

/-- C9: the spec says spatial-key generation guards a zero-width scene
extent and clamps into `[0, 1023]`; the Morton kernel normalizes by
`sceneMax - sceneMin` with an unguarded divide, so coinciding scene
bounds make every object's key computation divide by zero instead of
producing a well-defined 30-bit key. -/
theorem C9_morton_zero_extent :
    mortonCodeKernel { minBounds := ⟨2, 2, 2⟩, maxBounds := ⟨2, 2, 2⟩ }
      ⟨0, 0, 0⟩ ⟨0, 0, 0⟩ = none := by
  simp [mortonCodeKernel, safeDiv, Vector3.sub]

/-- Length of a `Vector3` along a single axis. -/
theorem vlen_single (d : ℚ) : vlen ⟨d, 0, 0⟩ = |(d : ℝ)| := by
  unfold vlen
  push_cast
  rw [show ((d : ℝ) ^ 2 + 0 ^ 2 + 0 ^ 2) = (d : ℝ) ^ 2 by ring, Real.sqrt_sq_eq_abs]

/-- `ShouldRebuildBVH`'s movement loop over a single dynamic object. -/
theorem frameMovement_single (o : RenderObject) (p : Vector3) (h : o.isDynamic = true) :
    GPUBVHSystem.frameMovement [o] [p] = vlen (Vector3.sub o.position p) := by
  simp [GPUBVHSystem.frameMovement, List.range_succ, lookup0, h]

/-- `m_previousPositions` refresh over a single dynamic object. -/
theorem updatedPrev_single (o : RenderObject) (p : Vector3) (h : o.isDynamic = true) :
    GPUBVHSystem.updatedPrev [o] [p] = [o.position] := by
  simp [GPUBVHSystem.updatedPrev, List.range_succ, lookup0, h]

/-- The state `ShouldRebuildBVH` leaves behind in tracking mode before
the frame ceiling: counter incremented, positions refreshed, movement
accumulated — identically in all three decision outcomes. -/
theorem ShouldRebuildBVH_step_state (s : GPUBVHSystem) (objects : List RenderObject)
    (hframes : s.framesSinceLastRebuild + 1 < Config.MAX_FRAMES_BETWEEN_REBUILDS)
    (hlen : s.previousPositions.length = objects.length) :
    (GPUBVHSystem.ShouldRebuildBVH s objects).2 =
      { s with
        framesSinceLastRebuild := s.framesSinceLastRebuild + 1
        previousPositions := GPUBVHSystem.updatedPrev objects s.previousPositions
        accumulatedMovement :=
          s.accumulatedMovement + GPUBVHSystem.frameMovement objects s.previousPositions } := by
  unfold GPUBVHSystem.ShouldRebuildBVH
  rw [if_neg (Nat.not_le.mpr hframes), if_neg (not_not_intro hlen)]
  dsimp only
  split_ifs <;> rfl

/-- The scheduling state after the initial build of the drift scenario. -/
theorem driftInit_eq : driftInit =
    { needsRebuild := false
      framesSinceLastRebuild := 0
      accumulatedMovement := 0
      previousPositions := [⟨0, 0, 0⟩]
      initialBVHSurfaceArea := 1000
      currentBVHSurfaceArea := 1000
      hasShaders := true } := by
  unfold driftInit GPUBVHSystem.BuildBVH GPUBVHSystem.UpdateBVHQualityMetrics
  norm_num [GPUBVHSystem.CalculateSurfaceAreaHeuristic, driftObj, dynObjAt]

/-- The drift scenario's state after `k ≤ 299` tracking calls: `k`
frames counted, `k/200` units accumulated, position refreshed, surface
areas untouched at `1000`. -/
theorem driftSeq_spec : ∀ k, k ≤ 299 →
    (driftSeq k).framesSinceLastRebuild = k ∧
    (driftSeq k).accumulatedMovement = (k : ℝ) / 200 ∧
    (driftSeq k).previousPositions = [⟨(k : ℚ) / 200, 0, 0⟩] ∧
    (driftSeq k).initialBVHSurfaceArea = 1000 ∧
    (driftSeq k).currentBVHSurfaceArea = 1000 := by
  intro k
  induction k with
  | zero =>
    intro _
    rw [show driftSeq 0 = driftInit from rfl, driftInit_eq]
    norm_num
  | succ k ih =>
    intro hk
    obtain ⟨hf, ha, hp, hi, hc⟩ := ih (by omega)
    have hlen : (driftSeq k).previousPositions.length = ([driftObj (k + 1)]).length := by
      simp [hp]
    have hframes : (driftSeq k).framesSinceLastRebuild + 1 <
        Config.MAX_FRAMES_BETWEEN_REBUILDS := by
      rw [hf]
      have h300 : Config.MAX_FRAMES_BETWEEN_REBUILDS = 300 := rfl
      omega
    have hsub : Vector3.sub (driftObj (k + 1)).position ⟨(k : ℚ) / 200, 0, 0⟩ =
        ⟨1 / 200, 0, 0⟩ := by
      simp only [driftObj, dynObjAt, Vector3.sub, Vector3.mk.injEq]
      refine ⟨by push_cast; ring, by ring, by ring⟩
    have hvl : vlen ⟨(1 : ℚ) / 200, 0, 0⟩ = 1 / 200 := by
      rw [vlen_single, abs_of_nonneg (by norm_num)]
      norm_num
    rw [show driftSeq (k + 1) =
      (GPUBVHSystem.ShouldRebuildBVH (driftSeq k) [driftObj (k + 1)]).2 from rfl,
      ShouldRebuildBVH_step_state (driftSeq k) [driftObj (k + 1)] hframes hlen]
    refine ⟨?_, ?_, ?_, hi, hc⟩
    · show (driftSeq k).framesSinceLastRebuild + 1 = k + 1
      rw [hf]
    · show (driftSeq k).accumulatedMovement +
        GPUBVHSystem.frameMovement [driftObj (k + 1)] (driftSeq k).previousPositions =
        ((k + 1 : ℕ) : ℝ) / 200
      rw [ha, hp, frameMovement_single (driftObj (k + 1)) _ rfl, hsub, hvl]
      push_cast
      ring
    · show GPUBVHSystem.updatedPrev [driftObj (k + 1)] (driftSeq k).previousPositions =
        [⟨((k + 1 : ℕ) : ℚ) / 200, 0, 0⟩]
      rw [hp, updatedPrev_single (driftObj (k + 1)) _ rfl]
      simp [driftObj, dynObjAt]

/-- The decision of `ShouldRebuildBVH` in tracking mode, as the ordered
disjunction of its three checks. -/
theorem ShouldRebuildBVH_decision_iff (s : GPUBVHSystem) (objects : List RenderObject)
    (hlen : s.previousPositions.length = objects.length) :
    (GPUBVHSystem.ShouldRebuildBVH s objects).1 = true ↔
      (Config.MAX_FRAMES_BETWEEN_REBUILDS ≤ s.framesSinceLastRebuild + 1 ∨
       Config.REBUILD_THRESHOLD <
         s.accumulatedMovement + GPUBVHSystem.frameMovement objects s.previousPositions ∨
       Config.BVH_QUALITY_THRESHOLD < s.CalculateBVHQuality) := by
  unfold GPUBVHSystem.ShouldRebuildBVH
  dsimp only
  split_ifs with h1 hl h2 h3
  · simpa using Or.inl h1
  · exact absurd hlen hl
  · simpa using Or.inr (Or.inl h2)
  · have hq : Config.BVH_QUALITY_THRESHOLD < s.CalculateBVHQuality := h3
    simpa using Or.inr (Or.inr hq)
  · constructor
    · intro hfalse
      simp at hfalse
    · rintro (h | h | h)
      · exact absurd h h1
      · exact absurd h h2
      · exact absurd h h3

/-- C5 (amended): in tracking mode (previous positions recorded for the
same object count) `ShouldRebuildBVH` answers `true` exactly when the
incremented frame counter reaches `MAX_FRAMES_BETWEEN_REBUILDS = 300`,
or the accumulated movement including this frame's exceeds
`REBUILD_THRESHOLD = 2`, or the stored quality ratio exceeds
`BVH_QUALITY_THRESHOLD = 2`.  The claim's slow-drift consequence is
false: at `0.005` units/frame the 300-frame ceiling fires with only
`1.5` units accumulated, before the movement ever exceeds `2`
(`C5_counterexample`). -/
theorem C5_rebuild_decision (s : GPUBVHSystem) (objects : List RenderObject)
    (hlen : s.previousPositions.length = objects.length) :
    (GPUBVHSystem.ShouldRebuildBVH s objects).1 = true ↔
      (Config.MAX_FRAMES_BETWEEN_REBUILDS ≤ s.framesSinceLastRebuild + 1 ∨
       Config.REBUILD_THRESHOLD <
         s.accumulatedMovement + GPUBVHSystem.frameMovement objects s.previousPositions ∨
       Config.BVH_QUALITY_THRESHOLD < s.CalculateBVHQuality) :=
  ShouldRebuildBVH_decision_iff s objects hlen

theorem C5_rebuild_decision_witness :
    (GPUBVHSystem.ShouldRebuildBVH {} []).1 = true ↔
      (Config.MAX_FRAMES_BETWEEN_REBUILDS ≤ ({} : GPUBVHSystem).framesSinceLastRebuild + 1 ∨
       Config.REBUILD_THRESHOLD < ({} : GPUBVHSystem).accumulatedMovement +
         GPUBVHSystem.frameMovement [] ({} : GPUBVHSystem).previousPositions ∨
       Config.BVH_QUALITY_THRESHOLD < ({} : GPUBVHSystem).CalculateBVHQuality) :=
  C5_rebuild_decision {} [] rfl

/-- C5 counterexample: with one object drifting `0.005` units/frame,
the 300th tracking call already answers rebuild although the cumulative
movement including that frame is only `1.5 ≤ 2`. -/
theorem C5_counterexample :
    (GPUBVHSystem.ShouldRebuildBVH (driftSeq 299) [driftObj 300]).1 = true ∧
    (driftSeq 299).accumulatedMovement +
      GPUBVHSystem.frameMovement [driftObj 300] (driftSeq 299).previousPositions ≤ 2 := by
  obtain ⟨hf, ha, hp, hi, hc⟩ := driftSeq_spec 299 (le_refl _)
  constructor
  · have hcond : Config.MAX_FRAMES_BETWEEN_REBUILDS ≤
        (driftSeq 299).framesSinceLastRebuild + 1 := by
      rw [hf]
      norm_num [Config.MAX_FRAMES_BETWEEN_REBUILDS]
    unfold GPUBVHSystem.ShouldRebuildBVH
    rw [if_pos hcond]
  · have hsub : Vector3.sub (driftObj 300).position ⟨((299 : ℕ) : ℚ) / 200, 0, 0⟩ =
        ⟨1 / 200, 0, 0⟩ := by
      simp only [driftObj, dynObjAt, Vector3.sub, Vector3.mk.injEq]
      refine ⟨by push_cast; norm_num, by ring, by ring⟩
    have hvl : vlen ⟨(1 : ℚ) / 200, 0, 0⟩ = 1 / 200 := by
      rw [vlen_single, abs_of_nonneg (by norm_num)]
      norm_num
    rw [ha, hp, frameMovement_single (driftObj 300) _ rfl, hsub, hvl]
    push_cast
    norm_num

/-- C6 (amended): a successful `GPUBVHSystem::BuildBVH` resets the frame
counter and accumulated movement to `0`, re-snapshots every object's
position, and refreshes `currentBVHSurfaceArea` from the pre-reset
movement — but `initialBVHSurfaceArea` is recaptured only while it is
still unset (`≤ 0`).  The claim's consequence that the quality ratio
restarts at `1` after *every* rebuild is false (`C6_counterexample`). -/
theorem C6_build_effect (s : GPUBVHSystem) (objects : List RenderObject)
    (hne : objects ≠ []) (hsh : s.hasShaders = true) :
    GPUBVHSystem.BuildBVH s objects = some
      { needsRebuild := false
        framesSinceLastRebuild := 0
        accumulatedMovement := 0
        previousPositions := objects.map (·.position)
        initialBVHSurfaceArea :=
          if s.initialBVHSurfaceArea ≤ 0 then s.CalculateSurfaceAreaHeuristic
          else s.initialBVHSurfaceArea
        currentBVHSurfaceArea := s.CalculateSurfaceAreaHeuristic
        hasShaders := s.hasShaders } := by
  unfold GPUBVHSystem.BuildBVH GPUBVHSystem.UpdateBVHQualityMetrics
  rw [if_neg (by simp [hne, hsh])]

theorem C6_build_effect_witness :
    GPUBVHSystem.BuildBVH {} [dynObjAt ⟨0, 0, 0⟩] = some
      { needsRebuild := false
        framesSinceLastRebuild := 0
        accumulatedMovement := 0
        previousPositions := [dynObjAt ⟨0, 0, 0⟩].map (·.position)
        initialBVHSurfaceArea :=
          if ({} : GPUBVHSystem).initialBVHSurfaceArea ≤ 0
          then ({} : GPUBVHSystem).CalculateSurfaceAreaHeuristic
          else ({} : GPUBVHSystem).initialBVHSurfaceArea
        currentBVHSurfaceArea := ({} : GPUBVHSystem).CalculateSurfaceAreaHeuristic
        hasShaders := ({} : GPUBVHSystem).hasShaders } :=
  C6_build_effect {} [dynObjAt ⟨0, 0, 0⟩] (by simp) rfl

/-- C6 counterexample: rebuilding a system whose initial surface area was
already captured (`1000`) with `3` units of accumulated movement leaves
`initialBVHSurfaceArea = 1000` but sets `currentBVHSurfaceArea = 1300`,
so the quality ratio does not restart at `1`. -/
theorem C6_counterexample :
    (GPUBVHSystem.BuildBVH
        { initialBVHSurfaceArea := 1000, accumulatedMovement := 3 }
        [dynObjAt ⟨0, 0, 0⟩]).isSome = true ∧
    ((GPUBVHSystem.BuildBVH
        { initialBVHSurfaceArea := 1000, accumulatedMovement := 3 }
        [dynObjAt ⟨0, 0, 0⟩]).getD {}).initialBVHSurfaceArea ≠
      ((GPUBVHSystem.BuildBVH
        { initialBVHSurfaceArea := 1000, accumulatedMovement := 3 }
        [dynObjAt ⟨0, 0, 0⟩]).getD {}).currentBVHSurfaceArea := by
  unfold GPUBVHSystem.BuildBVH GPUBVHSystem.UpdateBVHQualityMetrics
  norm_num [GPUBVHSystem.CalculateSurfaceAreaHeuristic]

/-- The scheduling state after the initial build of the teleport trace. -/
theorem teleInit_eq : teleInit =
    { needsRebuild := false
      framesSinceLastRebuild := 0
      accumulatedMovement := 0
      previousPositions := [⟨0, 0, 0⟩]
      initialBVHSurfaceArea := 1000
      currentBVHSurfaceArea := 1000
      hasShaders := true } := by
  unfold teleInit GPUBVHSystem.BuildBVH GPUBVHSystem.UpdateBVHQualityMetrics
  norm_num [GPUBVHSystem.CalculateSurfaceAreaHeuristic, dynObjAt]

/-- The state after the teleport frame's `ShouldRebuildBVH` call: `11`
units of movement accumulated, position refreshed. -/
theorem teleAfterCall_eq : teleAfterCall =
    { needsRebuild := false
      framesSinceLastRebuild := 1
      accumulatedMovement := 11
      previousPositions := [⟨11, 0, 0⟩]
      initialBVHSurfaceArea := 1000
      currentBVHSurfaceArea := 1000
      hasShaders := true } := by
  have hm : GPUBVHSystem.frameMovement [dynObjAt ⟨11, 0, 0⟩] [(⟨0, 0, 0⟩ : Vector3)] = 11 := by
    rw [frameMovement_single _ _ rfl]
    have hs : Vector3.sub (dynObjAt ⟨11, 0, 0⟩).position ⟨0, 0, 0⟩ = ⟨11, 0, 0⟩ := by
      simp [dynObjAt, Vector3.sub]
    rw [hs, vlen_single]
    norm_num
  have hup : GPUBVHSystem.updatedPrev [dynObjAt ⟨11, 0, 0⟩] [(⟨0, 0, 0⟩ : Vector3)] =
      [⟨11, 0, 0⟩] := by
    rw [updatedPrev_single _ _ rfl]
    simp [dynObjAt]
  rw [show teleAfterCall =
      (GPUBVHSystem.ShouldRebuildBVH teleInit [dynObjAt ⟨11, 0, 0⟩]).2 from rfl,
    ShouldRebuildBVH_step_state _ _
      (by rw [teleInit_eq]; norm_num [Config.MAX_FRAMES_BETWEEN_REBUILDS])
      (by rw [teleInit_eq]; rfl),
    teleInit_eq]
  norm_num [hm, hup]

/-- The state after the rebuild the teleport frame triggers: surface
areas now `1000` (initial) versus `2100` (current). -/
theorem teleAfterRebuild_eq : teleAfterRebuild =
    { needsRebuild := false
      framesSinceLastRebuild := 0
      accumulatedMovement := 0
      previousPositions := [⟨11, 0, 0⟩]
      initialBVHSurfaceArea := 1000
      currentBVHSurfaceArea := 2100
      hasShaders := true } := by
  rw [show teleAfterRebuild =
    (GPUBVHSystem.BuildBVH teleAfterCall [dynObjAt ⟨11, 0, 0⟩]).getD {} from rfl,
    teleAfterCall_eq]
  unfold GPUBVHSystem.BuildBVH GPUBVHSystem.UpdateBVHQualityMetrics
  norm_num [GPUBVHSystem.CalculateSurfaceAreaHeuristic, dynObjAt]

/-- C10 (corrected): the quality-degradation branch of `ShouldRebuildBVH`
is live: in tracking mode a stored quality ratio above the threshold
makes the call return a rebuild decision.  The claim's unreachability
argument fails because `BuildBVH` captures `currentBVHSurfaceArea` from
the *pre-reset* accumulated movement while `initialBVHSurfaceArea` keeps
its first-build value; `C10_counterexample` reaches such a state through
the public call sequence with the frame and movement checks both off. -/
theorem C10_quality_branch (s : GPUBVHSystem) (objects : List RenderObject)
    (hlen : s.previousPositions.length = objects.length)
    (hq : Config.BVH_QUALITY_THRESHOLD < s.CalculateBVHQuality) :
    (GPUBVHSystem.ShouldRebuildBVH s objects).1 = true := by
  rw [ShouldRebuildBVH_decision_iff s objects hlen]
  exact Or.inr (Or.inr hq)

theorem C10_quality_branch_witness :
    (GPUBVHSystem.ShouldRebuildBVH teleAfterRebuild [dynObjAt ⟨11, 0, 0⟩]).1 = true :=
  C10_quality_branch teleAfterRebuild [dynObjAt ⟨11, 0, 0⟩]
    (by rw [teleAfterRebuild_eq]; rfl)
    (by rw [teleAfterRebuild_eq]
        norm_num [GPUBVHSystem.CalculateBVHQuality, Config.BVH_QUALITY_THRESHOLD])

/-- C10 counterexample: after build → teleport frame (movement rebuild)
→ rebuild, the next `ShouldRebuildBVH` call returns a rebuild decision
although the frame ceiling and the movement threshold are both strictly
off — the decision is caused by the quality check alone. -/
theorem C10_counterexample :
    (GPUBVHSystem.ShouldRebuildBVH teleAfterRebuild [dynObjAt ⟨11, 0, 0⟩]).1 = true ∧
    teleAfterRebuild.framesSinceLastRebuild + 1 < Config.MAX_FRAMES_BETWEEN_REBUILDS ∧
    teleAfterRebuild.accumulatedMovement +
      GPUBVHSystem.frameMovement [dynObjAt ⟨11, 0, 0⟩] teleAfterRebuild.previousPositions ≤
      Config.REBUILD_THRESHOLD := by
  have hm0 : GPUBVHSystem.frameMovement [dynObjAt ⟨11, 0, 0⟩] [(⟨11, 0, 0⟩ : Vector3)] = 0 := by
    rw [frameMovement_single _ _ rfl]
    have hs : Vector3.sub (dynObjAt ⟨11, 0, 0⟩).position ⟨11, 0, 0⟩ = ⟨0, 0, 0⟩ := by
      simp [dynObjAt, Vector3.sub]
    rw [hs, vlen_single]
    norm_num
  refine ⟨?_, ?_, ?_⟩
  · rw [ShouldRebuildBVH_decision_iff _ _ (by rw [teleAfterRebuild_eq]; rfl)]
    refine Or.inr (Or.inr ?_)
    rw [teleAfterRebuild_eq]
    norm_num [GPUBVHSystem.CalculateBVHQuality, Config.BVH_QUALITY_THRESHOLD]
  · rw [teleAfterRebuild_eq]
    norm_num [Config.MAX_FRAMES_BETWEEN_REBUILDS]
  · rw [teleAfterRebuild_eq]
    norm_num [hm0, Config.REBUILD_THRESHOLD]

end DXGame
